import Mathlib

/-!
# Joystick teleoperation and face tracking for the Tello demos

A shallow embedding of the two programs `demo/tinyfaces/main.go` and
`demo/tinydrone/main.go`:

* the joystick poll closure (both programs): line clean-up, tokenising,
  `strconv.Atoi`, the button `switch`, and the stick stores;
* the two mixer closures of `tinydrone` (right stick, left stick);
* `toggleCVSystem`, `trackFace` and `dist` of `tinyfaces`.

Conventions.  Go `int` is the 64-bit machine integer, embedded as `Int` with
`wrapInt64` where the source subtracts.  `float64` values are embedded as
rationals, and an arithmetic operation whose exact result need not be a
`float64` is followed by `round64`, rounding to nearest with ties to even
(exponent range unbounded: the values of the programs stay far from overflow
and from subnormals).  The square root that `math.Sqrt` rounds and
`tello.ValidatePitch` are library functions and are taken as parameters.  Everything a closure sends to the drone
or prints is collected, in program order, in a list of `Event`s.
-/

namespace Golab

/-! ## Constants -/

/-- Source constant `frameX`. -/
def frameX : Int := 400

/-- Source constant `frameY`. -/
def frameY : Int := 300

/-- Source constant `offset`. -/
def offset : Int := 32767

/-- Source constant `detente`. -/
def detente : Int := 500

/-! ## Observable events -/

/-- The two programs that share the joystick poll closure. -/
inductive Program
  | tinyfaces
  | tinydrone
  deriving DecidableEq, Repr

/-- Lines the programs print. -/
inductive Msg
  | readError
  | underrun
  | cvSystem
  | land
  | flip
  | takeoff
  | tracking
  | notTracking
  deriving DecidableEq, Repr

/-- One observable step: a printed line or a call on the `tello` driver. -/
inductive Event
  | println (m : Msg)
  | TakeOff
  | Land
  | FrontFlip
  | Forward (m : Int)
  | Backward (m : Int)
  | Left (m : Int)
  | Right (m : Int)
  | Up (m : Int)
  | Down (m : Int)
  | Clockwise (m : Int)
  | CounterClockwise (m : Int)
  deriving DecidableEq, Repr

/-- An event is an actuator command when it is a call on the driver. -/
def Event.isCommand : Event → Bool
  | .println _ => false
  | _ => true

/-! ## Machine integers and `strconv.Atoi` -/

/-- Two's-complement wrap of a mathematical integer into the Go `int` range. -/
def wrapInt64 (n : Int) : Int := (n + 2 ^ 63) % 2 ^ 64 - 2 ^ 63

/-- The two error kinds of `strconv`: `ErrSyntax` and `ErrRange`. -/
inductive NumErr
  | syn
  | range
  deriving DecidableEq, Repr

/-- Value of a decimal digit byte. -/
def digitVal (c : Char) : Option Nat :=
  if 48 ≤ c.toNat ∧ c.toNat ≤ 57 then some (c.toNat - 48) else none

/-- The digit loop of `strconv.ParseUint(s, 10, 64)`: it stops at the first
byte that is not a digit (syntax error) or at the first overflow of `uint64`
(range error), whichever comes first. -/
def parseUintLoop : Nat → List Char → Except NumErr Nat
  | n, [] => .ok n
  | n, c :: cs =>
    match digitVal c with
    | none => .error .syn
    | some d =>
      if n ≥ (2 ^ 64 - 1) / 10 + 1 then .error .range
      else if n * 10 + d > 2 ^ 64 - 1 then .error .range
      else parseUintLoop (n * 10 + d) cs

/-- `strconv.ParseUint(s, 10, 64)`. -/
def ParseUint (s : List Char) : Except NumErr Nat :=
  match s with
  | [] => .error .syn
  | _ => parseUintLoop 0 s

/-- `strconv.Atoi` on a 64-bit platform: the value it returns together with
its error.  A syntax error returns 0, a range error the nearest bound. -/
def Atoi (s : List Char) : Int × Option NumErr :=
  match s with
  | [] => (0, some .syn)
  | c :: cs =>
    let neg := c = '-'
    let body := if c = '+' ∨ c = '-' then cs else s
    match ParseUint body with
    | .error .syn => (0, some .syn)
    | .error .range => (if neg then -(2 ^ 63) else 2 ^ 63 - 1, some .range)
    | .ok un =>
      if ¬ neg ∧ un ≥ 2 ^ 63 then (2 ^ 63 - 1, some .range)
      else if neg ∧ un > 2 ^ 63 then (-(2 ^ 63), some .range)
      else (if neg then -(un : Int) else (un : Int), none)

/-! ## Line clean-up and tokenising -/

/-- `strings.Replace(s, c, "", -1)` for a one-byte `c`: drop every `c`. -/
def Replace (c : Char) (s : List Char) : List Char :=
  s.filter (fun d => d != c)

/-- `strings.Split(s, " ")`: one more token than there are spaces. -/
def Split : List Char → List (List Char)
  | [] => [[]]
  | c :: cs =>
    if c = ' ' then [] :: Split cs
    else
      match Split cs with
      | [] => [[c]]
      | t :: ts => (c :: t) :: ts

/-- The token `"true"`. -/
def trueTok : List Char := ['t', 'r', 'u', 'e']

/-! ## `float64` rounding -/

/-- Nearest integer, ties to the even one. -/
def roundEven (x : ℚ) : ℤ :=
  if x - ⌊x⌋ < 1 / 2 then ⌊x⌋
  else if 1 / 2 < x - ⌊x⌋ then ⌊x⌋ + 1
  else if ⌊x⌋ % 2 = 0 then ⌊x⌋ else ⌊x⌋ + 1

/-- Floor of the binary logarithm of `n`, by halving, with fuel. -/
def log2Fuel : Nat → Nat → Nat
  | 0, _ => 0
  | k + 1, n => if n < 2 then 0 else log2Fuel k (n / 2) + 1

/-- Binary exponent of a positive rational `q`: the `e` with
`2 ^ e ≤ q < 2 ^ (e + 1)`. -/
def expo (q : ℚ) : ℤ :=
  if (2 : ℚ) ^ ((log2Fuel q.num.natAbs q.num.natAbs : ℤ) - (log2Fuel q.den q.den : ℤ)) ≤ q
  then (log2Fuel q.num.natAbs q.num.natAbs : ℤ) - (log2Fuel q.den q.den : ℤ)
  else (log2Fuel q.num.natAbs q.num.natAbs : ℤ) - (log2Fuel q.den q.den : ℤ) - 1

/-- Rounding of a positive rational to 53 significant bits. -/
def roundPos (q : ℚ) : ℚ :=
  (roundEven (q / 2 ^ (expo q - 52)) : ℚ) * 2 ^ (expo q - 52)

/-- The `float64` nearest to a rational, ties to even: what a `float64`
operation returns for the exact result `q`. -/
def round64 (q : ℚ) : ℚ :=
  if q = 0 then 0 else if 0 < q then roundPos q else -roundPos (-q)

/-- The constant `0.05` as a `float64`. -/
def c005 : ℚ := 3602879701896397 / 72057594037927936

/-! ## Face-tracker state (`tinyfaces`) -/

/-- The package-level tracking variables of `tinyfaces`. -/
structure Tracker where
  tracking : Bool
  detected : Bool
  detectSize : Bool
  refDistance : ℚ
  left : ℚ
  top : ℚ
  right : ℚ
  bottom : ℚ
  deriving DecidableEq, Repr

/-- Values of the tracking variables at program start. -/
def Tracker.init : Tracker :=
  { tracking := false, detected := false, detectSize := false,
    refDistance := 0, left := 0, top := 0, right := 0, bottom := 0 }

/-- Source function `dist`; `sqrt` stands for the square root, of which
`math.Sqrt` returns the nearest `float64`.  Each subtraction, product and the
sum is rounded on its own. -/
def dist (sqrt : ℚ → ℚ) (x1 y1 x2 y2 : ℚ) : ℚ :=
  round64 (sqrt (round64
    (round64 (round64 (x2 - x1) * round64 (x2 - x1)) +
      round64 (round64 (y2 - y1) * round64 (y2 - y1)))))

/-- Source variable `distTolerance`. -/
def distTolerance (sqrt : ℚ → ℚ) : ℚ :=
  round64 (c005 * dist sqrt 0 0 frameX frameY)

/-- Source function `toggleCVSystem`. -/
def toggleCVSystem (s : Tracker) : Tracker × List Event :=
  let out := [Event.Forward 0, Event.Up 0, Event.Clockwise 0]
  let s := { s with tracking := !s.tracking }
  if s.tracking then
    ({ s with detectSize := true }, out ++ [Event.println Msg.tracking])
  else
    ({ s with detectSize := false }, out ++ [Event.println Msg.notTracking])

/-- One row of the detection matrix: columns 2 to 6. -/
structure Detection where
  confidence : ℚ
  x1 : ℚ
  y1 : ℚ
  x2 : ℚ
  y2 : ℚ
  deriving DecidableEq, Repr

/-- What `trackFace` reads of a frame: its size and the rows the network
returned for it. -/
structure Frame where
  cols : Nat
  rows : Nat
  detections : List Detection
  deriving DecidableEq, Repr

/-- Body of the scan loop of `trackFace` for one row. -/
def scanRow (W H : ℚ) (s : Tracker) (d : Detection) : Tracker :=
  if d.confidence < 1 / 2 then s
  else
    let left := d.x1 * W
    let top := d.y1 * H
    let right := d.x2 * W
    let bottom := d.y2 * H
    { s with
      left := min (max 0 left) (W - 1)
      right := min (max 0 right) (W - 1)
      bottom := min (max 0 bottom) (H - 1)
      top := min (max 0 top) (H - 1)
      detected := true }

/-- The `// x axis` switch of `trackFace`.  Halving a `float64` is exact. -/
def xAxis (W : ℚ) (s : Tracker) : Event :=
  if s.right < W / 2 then Event.CounterClockwise 50
  else if s.left > W / 2 then Event.Clockwise 50
  else Event.Clockwise 0

/-- The `// y axis` switch of `trackFace`. -/
def yAxis (H : ℚ) (s : Tracker) : Event :=
  if s.top < round64 (H / 10) then Event.Up 25
  else if s.bottom > round64 (H - round64 (H / 10)) then Event.Down 25
  else Event.Up 0

/-- The `// z axis` switch of `trackFace`; `refDistance` is the variable's
value when the switch runs. -/
def zAxis (sqrt : ℚ → ℚ) (distance refDistance : ℚ) : Event :=
  if distance < round64 (refDistance - distTolerance sqrt) then Event.Forward 20
  else if distance > round64 (refDistance + distTolerance sqrt) then Event.Backward 20
  else Event.Forward 0

/-- The `if detectSize` block of `trackFace`. -/
def calibrate (sqrt : ℚ → ℚ) (s : Tracker) : Tracker :=
  if s.detectSize then
    { s with detectSize := false, refDistance := dist sqrt s.left s.top s.right s.bottom }
  else s

/-- The scan loop of `trackFace` over the rows of one frame. -/
def scan (frame : Frame) (s : Tracker) : Tracker :=
  frame.detections.foldl (scanRow frame.cols frame.rows) s

/-- Source function `trackFace`, from the scan loop on.  Drawing the rectangle
on the frame is not part of the state. -/
def trackFace (sqrt : ℚ → ℚ) (s : Tracker) (frame : Frame) : Tracker × List Event :=
  let W : ℚ := frame.cols
  let H : ℚ := frame.rows
  let s := scan frame s
  if !s.tracking || !s.detected then (s, [])
  else
    let s := calibrate sqrt s
    let distance := dist sqrt s.left s.top s.right s.bottom
    (s, [xAxis W s, yAxis H s, zAxis sqrt distance s.refDistance])

/-- The video loop of `main`: `trackFace` once per frame, in order; the outputs
are kept per frame. -/
def runFrames (sqrt : ℚ → ℚ) : Tracker → List Frame → Tracker × List (List Event)
  | s, [] => (s, [])
  | s, f :: fs =>
    ((runFrames sqrt (trackFace sqrt s f).1 fs).1,
      (trackFace sqrt s f).2 :: (runFrames sqrt (trackFace sqrt s f).1 fs).2)

/-! ## Joystick poll closure (both programs) -/

/-- Variables the poll closure reads and writes: the four stick cells, the four
stored button flags, and (through `toggleCVSystem`) the tracking variables. -/
structure State where
  leftX : Int
  leftY : Int
  rightX : Int
  rightY : Int
  button1 : Bool
  button2 : Bool
  button3 : Bool
  button4 : Bool
  cv : Tracker
  deriving DecidableEq, Repr

/-- State when the poll closure is installed: every cell stores `int(0)`, every
flag is `false`. -/
def State.init : State :=
  { leftX := 0, leftY := 0, rightX := 0, rightY := 0,
    button1 := false, button2 := false, button3 := false, button4 := false,
    cv := Tracker.init }

/-- Source type `pair`. -/
structure pair where
  x : Int
  y : Int
  deriving DecidableEq, Repr

/-- Source function `getLeftStick`. -/
def getLeftStick (s : State) : pair := { x := s.leftX, y := s.leftY }

/-- Source function `getRightStick`. -/
def getRightStick (s : State) : pair := { x := s.rightX, y := s.rightY }

/-- What `reader.ReadBytes` returned: the bytes and whether `err != nil`. -/
structure Reply where
  bytes : List Char
  err : Bool
  deriving DecidableEq, Repr

/-- The locals `x, y, b1, ..., b5` of one tick. -/
structure Sample where
  x : Int
  y : Int
  b1 : Bool
  b2 : Bool
  b3 : Bool
  b4 : Bool
  b5 : Bool
  deriving DecidableEq, Repr

/-- The local `stickmode`. -/
inductive StickMode
  | right
  | left
  deriving DecidableEq, Repr

/-- Tokens of a reply: both `strings.Replace` calls, then `strings.Split`. -/
def tokens (r : Reply) : List (List Char) :=
  Split (Replace (Char.ofNat 10) (Replace (Char.ofNat 13) r.bytes))

/-- The `// parse data` block: `none` on the `len(data) != 7` return. -/
def parse (data : List (List Char)) : Option Sample :=
  match data with
  | [d0, d1, d2, d3, d4, d5, d6] =>
    some { x := (Atoi d0).1, y := (Atoi d1).1,
           b1 := decide (d2 = trueTok), b2 := decide (d3 = trueTok),
           b3 := decide (d4 = trueTok), b4 := decide (d5 = trueTok),
           b5 := decide (d6 = trueTok) }
  | _ => none

/-- The `// handle buttons` switch.  The `b1` case calls `toggleCVSystem` in
`tinyfaces` and only prints in `tinydrone`. -/
def handleButtons (p : Program) (s : State) (f : Sample) :
    State × List Event × StickMode :=
  if f.b1 then
    if !s.button1 then
      match p with
      | .tinyfaces =>
        ({ s with button1 := f.b1, cv := (toggleCVSystem s.cv).1 },
          Event.println Msg.cvSystem :: (toggleCVSystem s.cv).2, StickMode.right)
      | .tinydrone =>
        ({ s with button1 := f.b1 }, [Event.println Msg.cvSystem], StickMode.right)
    else (s, [], StickMode.right)
  else if f.b2 then
    if !s.button2 then
      ({ s with button2 := f.b2 }, [Event.println Msg.land, Event.Land], StickMode.right)
    else (s, [], StickMode.right)
  else if f.b3 then
    if !s.button3 then
      ({ s with button3 := f.b3 }, [Event.println Msg.flip, Event.FrontFlip], StickMode.right)
    else (s, [], StickMode.right)
  else if f.b4 then
    if !s.button4 then
      ({ s with button4 := f.b4 }, [Event.println Msg.takeoff, Event.TakeOff], StickMode.right)
    else (s, [], StickMode.right)
  else
    ({ s with button1 := f.b1, button2 := f.b2, button3 := f.b3, button4 := f.b4 }, [],
      if f.b5 then StickMode.left else StickMode.right)

/-- The `// handle control stick` block. -/
def storeSticks (mode : StickMode) (s : State) (x y : Int) : State :=
  match mode with
  | .right => { s with leftX := offset, leftY := offset, rightX := x, rightY := y }
  | .left => { s with leftX := x, leftY := y, rightX := offset, rightY := offset }

/-- Everything after a successful parse: buttons, then sticks. -/
def handleSample (p : Program) (s : State) (f : Sample) : State × List Event :=
  let r := handleButtons p s f
  (storeSticks r.2.2 r.1 f.x f.y, r.2.1)

/-- One run of the joystick poll closure. -/
def pollTick (p : Program) (s : State) (reply : Reply) : State × List Event :=
  let out := if reply.err then [Event.println Msg.readError] else []
  match parse (tokens reply) with
  | none => (s, out ++ [Event.println Msg.underrun])
  | some f => ((handleSample p s f).1, out ++ (handleSample p s f).2)

/-- The poll closure run once per reply, in order; the outputs are kept per
tick. -/
def runTicks (p : Program) : State → List Reply → State × List (List Event)
  | s, [] => (s, [])
  | s, r :: rs =>
    ((runTicks p (pollTick p s r).1 rs).1,
      (pollTick p s r).2 :: (runTicks p (pollTick p s r).1 rs).2)

/-! ## Mixer closures (`tinydrone`) -/

/-- First switch of the right-stick closure. -/
def rightYSwitch (ValidatePitch : Int → Int → Int) (y : Int) : Event :=
  if y < offset - detente then
    Event.Backward (ValidatePitch (wrapInt64 (y - offset)) offset)
  else if y > offset + detente then
    Event.Forward (ValidatePitch (wrapInt64 (y - offset)) offset)
  else Event.Forward 0

/-- Second switch of the right-stick closure. -/
def rightXSwitch (ValidatePitch : Int → Int → Int) (x : Int) : Event :=
  if x > offset + detente then
    Event.Right (ValidatePitch (wrapInt64 (x - offset)) offset)
  else if x < offset - detente then
    Event.Left (ValidatePitch (wrapInt64 (x - offset)) offset)
  else Event.Right 0

/-- First switch of the left-stick closure. -/
def leftYSwitch (ValidatePitch : Int → Int → Int) (y : Int) : Event :=
  if y < offset - detente then
    Event.Down (ValidatePitch (wrapInt64 (y - offset)) offset)
  else if y > offset + detente then
    Event.Up (ValidatePitch (wrapInt64 (y - offset)) offset)
  else Event.Up 0

/-- Second switch of the left-stick closure. -/
def leftXSwitch (ValidatePitch : Int → Int → Int) (x : Int) : Event :=
  if x > offset + detente then
    Event.Clockwise (ValidatePitch (wrapInt64 (x - offset)) offset)
  else if x < offset - detente then
    Event.CounterClockwise (ValidatePitch (wrapInt64 (x - offset)) offset)
  else Event.Clockwise 0

/-- The right-stick mixer closure. -/
def rightStickTick (ValidatePitch : Int → Int → Int) (s : State) : List Event :=
  let rightStick := getRightStick s
  [rightYSwitch ValidatePitch rightStick.y, rightXSwitch ValidatePitch rightStick.x]

/-- The left-stick mixer closure. -/
def leftStickTick (ValidatePitch : Int → Int → Int) (s : State) : List Event :=
  let leftStick := getLeftStick s
  [leftYSwitch ValidatePitch leftStick.y, leftXSwitch ValidatePitch leftStick.x]

/-- Both mixer closures of one 50 ms round. -/
def mixerTick (ValidatePitch : Int → Int → Int) (s : State) : List Event :=
  rightStickTick ValidatePitch s ++ leftStickTick ValidatePitch s

/-! ## Vocabulary of the properties -/

/-- The parsed sample of a reply, when the line has seven tokens. -/
def sampleOf (r : Reply) : Option Sample := parse (tokens r)

/-- The four one-shot actions, in the priority order of the switch. -/
inductive OneShot
  | ToggleCVSystem
  | Land
  | Flip
  | TakeOff
  deriving DecidableEq, Repr

/-- The event that shows an action was issued: the driver call, and for the
`b1` case the line `CV system` printed in the same block as the call. -/
def OneShot.marker : OneShot → Event
  | .ToggleCVSystem => Event.println Msg.cvSystem
  | .Land => Event.Land
  | .Flip => Event.FrontFlip
  | .TakeOff => Event.TakeOff

/-- The button an action is bound to, as read in a sample. -/
def OneShot.pressed : OneShot → Sample → Bool
  | .ToggleCVSystem, f => f.b1
  | .Land, f => f.b2
  | .Flip, f => f.b3
  | .TakeOff, f => f.b4

/-- Some button of higher priority is true in the sample. -/
def OneShot.masked : OneShot → Sample → Bool
  | .ToggleCVSystem, _ => false
  | .Land, f => f.b1
  | .Flip, f => f.b1 || f.b2
  | .TakeOff, f => f.b1 || f.b2 || f.b3

/-- The stored flag of an action's button. -/
def OneShot.stored : OneShot → State → Bool
  | .ToggleCVSystem, s => s.button1
  | .Land, s => s.button2
  | .Flip, s => s.button3
  | .TakeOff, s => s.button4

/-- None of `b1..b4` is true in the sample. -/
def Sample.idle (f : Sample) : Bool := !f.b1 && !f.b2 && !f.b3 && !f.b4

/-- A reply read without error from the text of a line. -/
def line (text : String) : Reply := { bytes := text.toList, err := false }

/-- Yaw commands. -/
def Event.isYaw : Event → Bool
  | .Clockwise _ => true
  | .CounterClockwise _ => true
  | _ => false

/-- Distance commands. -/
def Event.isDistance : Event → Bool
  | .Forward _ => true
  | .Backward _ => true
  | _ => false

/-- A row the scan loop accepts. -/
def Detection.accepted (d : Detection) : Bool := decide (¬ d.confidence < 1 / 2)

/-- The box of a row as the property states it: scaled by the frame size, then
clamped into the frame; in the order left, top, right, bottom. -/
def clampedBox (W H : ℚ) (d : Detection) : ℚ × ℚ × ℚ × ℚ :=
  (min (max 0 (d.x1 * W)) (W - 1), min (max 0 (d.y1 * H)) (H - 1),
    min (max 0 (d.x2 * W)) (W - 1), min (max 0 (d.y2 * H)) (H - 1))

/-- The box held in the tracking variables. -/
def Tracker.box (s : Tracker) : ℚ × ℚ × ℚ × ℚ := (s.left, s.top, s.right, s.bottom)

/-- Diagonal of a box, by `dist`. -/
def diagonal (sqrt : ℚ → ℚ) (b : ℚ × ℚ × ℚ × ℚ) : ℚ :=
  dist sqrt b.1 b.2.1 b.2.2.1 b.2.2.2

/-- Whether `trackFace` executes the assignment to `refDistance` on this frame. -/
def assigns (s : Tracker) (frame : Frame) : Bool :=
  (scan frame s).tracking && (scan frame s).detected && (scan frame s).detectSize

/-- Number of frames of a run on which `refDistance` is assigned. -/
def countAssign (sqrt : ℚ → ℚ) : Tracker → List Frame → Nat
  | _, [] => 0
  | s, f :: fs =>
    (if assigns s f then 1 else 0) + countAssign sqrt (trackFace sqrt s f).1 fs

/-- Newton iteration for the integer square root, with fuel. -/
def newtonSqrt (n : Nat) : Nat → Nat → Nat
  | 0, x => x
  | k + 1, x =>
    let y := (x + n / x) / 2
    if y < x then newtonSqrt n k y else x

/-- A computable stand-in for the square root, exact on squares of rationals;
used to run the tracker on concrete boxes. -/
def sqrtQ (q : ℚ) : ℚ :=
  (newtonSqrt q.num.toNat 64 (q.num.toNat + 1) : ℚ) / (newtonSqrt q.den 64 (q.den + 1) : ℚ)

/-- A computable stand-in for the square root on boxes whose diagonal is
irrational: the root from below to within `2 ^ -100`, exact on squares of
dyadic rationals. -/
def sqrtHi (q : ℚ) : ℚ :=
  (newtonSqrt (⌊q * ((2 ^ 200 : ℕ) : ℚ)⌋).toNat 64
      (2 ^ (log2Fuel (⌊q * ((2 ^ 200 : ℕ) : ℚ)⌋).toNat
        (⌊q * ((2 ^ 200 : ℕ) : ℚ)⌋).toNat / 2 + 1)) : ℚ) /
    ((2 ^ 100 : ℕ) : ℚ)

/-- The distance switch as the specification states it, on an acted-upon frame
after calibration: the thresholds are the exact difference and sum
`refDistance - 25` and `refDistance + 25`. -/
def ExactDistanceThresholds (sqrt : ℚ → ℚ) (s : Tracker) (frame : Frame) : Prop :=
  s.tracking = true → (scan frame s).detected = true → s.detectSize = false →
    (trackFace sqrt s frame).2.filter Event.isDistance =
      [if diagonal sqrt (scan frame s).box < s.refDistance - 25 then Event.Forward 20
        else if diagonal sqrt (scan frame s).box > s.refDistance + 25 then
          Event.Backward 20
        else Event.Forward 0]

/-- The edge property as the specification states it, for the tick that
processes `cur` after the ticks `pre`: an action issued in that tick has its
button true in `cur` and false in the frame before it, if there is one. -/
def RisingEdgeOnly (p : Program) (pre : List Reply) (cur : Reply) : Prop :=
  ∀ (a : OneShot) (f : Sample), sampleOf cur = some f →
    a.marker ∈ (pollTick p (runTicks p State.init pre).1 cur).2 →
    a.pressed f = true ∧
      ∀ prev ∈ pre.getLast?, ∃ g, sampleOf prev = some g ∧ a.pressed g = false

/-- A decimal integer as the line protocol writes it: an optional sign, then
one or more digits. -/
def isDecimalInt (tok : List Char) : Bool :=
  match tok with
  | [] => false
  | c :: cs =>
    let body := if c = '+' ∨ c = '-' then cs else tok
    !body.isEmpty && body.all (fun d => (digitVal d).isSome)

/-- The handling of a non-numeric axis as the specification states it: the
parse yields no sample and both stick groups keep their values. -/
def DiscardsNonNumeric (p : Program) (s : State) (r : Reply) : Prop :=
  ∀ d0 d1 d2 d3 d4 d5 d6 : List Char, tokens r = [d0, d1, d2, d3, d4, d5, d6] →
    (isDecimalInt d0 = false ∨ isDecimalInt d1 = false) →
    sampleOf r = none ∧
      getLeftStick (pollTick p s r).1 = getLeftStick s ∧
      getRightStick (pollTick p s r).1 = getRightStick s

/-- The calibration frame as the specification states it: when the frame is
acted upon with `detectSize` set, no `Forward` and no `Backward` command is
issued in that frame. -/
def NoDistanceCommandOnCalibration (sqrt : ℚ → ℚ) (s : Tracker) (frame : Frame) : Prop :=
  s.tracking = true → (scan frame s).detected = true → s.detectSize = true →
    ∀ e ∈ (trackFace sqrt s frame).2, e.isDistance = false

/-- The first accepted row of a run of frames, in frame order and then row
order, with the frame it belongs to. -/
def firstAccepted : List Frame → Option (Frame × Detection)
  | [] => none
  | f :: fs =>
    match f.detections.find? Detection.accepted with
    | some d => some (f, d)
    | none => firstAccepted fs

/-- The calibration as the specification states it, for the frames `fs`
processed after `toggleCVSystem` enabled tracking from `s`: `refDistance` is
assigned exactly once, to the diagonal of the clamped box of the first accepted
detection. -/
def CalibratesOnFirstDetection (sqrt : ℚ → ℚ) (s : Tracker) (fs : List Frame) : Prop :=
  ∀ (f : Frame) (d : Detection), firstAccepted fs = some (f, d) →
    countAssign sqrt (toggleCVSystem s).1 fs = 1 ∧
      (runFrames sqrt (toggleCVSystem s).1 fs).1.refDistance =
        diagonal sqrt (clampedBox f.cols f.rows d)

/-- The `b1` edge as the specification states it, for the tick that processes
`cur` after the ticks `pre`: if `b1` is true in `cur` and was false in the frame
before it (or there is none), `ToggleCVSystem` is issued in that tick. -/
def TogglesOnEveryRisingEdge (p : Program) (pre : List Reply) (cur : Reply) : Prop :=
  ∀ f : Sample, sampleOf cur = some f → f.b1 = true →
    (∀ prev ∈ pre.getLast?, ∃ g, sampleOf prev = some g ∧ g.b1 = false) →
    OneShot.ToggleCVSystem.marker ∈ (pollTick p (runTicks p State.init pre).1 cur).2

/-- Value of a run of decimal digits read left to right, starting from `n`. -/
def digitsValue (n : Nat) (cs : List Char) : Nat :=
  cs.foldl (fun a d => a * 10 + (d.toNat - 48)) n

/-- The integer a decimal token denotes: an optional sign, then digits. -/
def decimalValue (tok : List Char) : Int :=
  match tok with
  | [] => 0
  | c :: cs =>
    if c = '-' then -(digitsValue 0 cs : Int)
    else if c = '+' then (digitsValue 0 cs : Int)
    else (digitsValue 0 (c :: cs) : Int)

/-- A token of the line protocol: no space, carriage return or line feed in
it. -/
def cleanTok (tok : List Char) : Bool :=
  tok.all (fun c => c != ' ' && c != Char.ofNat 13 && c != Char.ofNat 10)

/-- The bytes of one joystick record as `ReadBytes` can return them: line feeds
left over from the record before, the seven tokens separated by single spaces,
the carriage return, and possibly line feeds. -/
def record (n1 : Nat) (d0 d1 d2 d3 d4 d5 d6 : List Char) (n2 : Nat) : List Char :=
  List.replicate n1 (Char.ofNat 10) ++
    (d0 ++ ' ' :: (d1 ++ ' ' :: (d2 ++ ' ' :: (d3 ++ ' ' :: (d4 ++ ' ' ::
      (d5 ++ ' ' :: d6)))))) ++
    Char.ofNat 13 :: List.replicate n2 (Char.ofNat 10)

/-- No space in the token. -/
def noSpace (tok : List Char) : Bool := tok.all (fun c => c != ' ')

/-- The parse of a record as the specification states it: `x` and `y` any
decimal integers, `t1..t5` any tokens without a space. -/
def ParsesAsWritten (n1 n2 : Nat) (d0 d1 d2 d3 d4 d5 d6 : List Char) : Prop :=
  isDecimalInt d0 = true → isDecimalInt d1 = true →
    noSpace d2 = true → noSpace d3 = true → noSpace d4 = true → noSpace d5 = true →
    noSpace d6 = true →
    sampleOf ⟨record n1 d0 d1 d2 d3 d4 d5 d6 n2, false⟩ =
      some ⟨decimalValue d0, decimalValue d1, decide (d2 = trueTok),
        decide (d3 = trueTok), decide (d4 = trueTok), decide (d5 = trueTok),
        decide (d6 = trueTok)⟩

/-! ## Facts about `round64` -/

theorem log2Fuel_eq (k : Nat) : ∀ n : Nat, n ≤ k → log2Fuel k n = Nat.log 2 n := by
  induction k with
  | zero =>
    intro n hn
    have : n = 0 := by omega
    subst this
    simp [log2Fuel]
  | succ k ih =>
    intro n hn
    unfold log2Fuel
    split_ifs with h2
    · exact (Nat.log_of_lt h2).symm
    · rw [ih (n / 2) (by omega)]
      exact (Nat.log_of_one_lt_of_le (by norm_num) (by omega)).symm

theorem scale_pos (e : ℤ) : (0 : ℚ) < 2 ^ e := by positivity

theorem log_bounds {q : ℚ} (hq : 0 < q) :
    (2 : ℚ) ^ Int.log 2 q ≤ q ∧ q < (2 : ℚ) ^ (Int.log 2 q + 1) := by
  have h1 := Int.zpow_log_le_self (b := 2) (r := q) (by norm_num) hq
  have h2 := Int.lt_zpow_succ_log_self (b := 2) (by norm_num) q
  simp only [Nat.cast_ofNat] at h1 h2
  exact ⟨h1, h2⟩

theorem log_unique {q : ℚ} {e : ℤ} (hq : 0 < q) (h1 : (2 : ℚ) ^ e ≤ q)
    (h2 : q < (2 : ℚ) ^ (e + 1)) : Int.log 2 q = e := by
  have a1 : e ≤ Int.log 2 q := by
    have := (Int.zpow_le_iff_le_log (b := 2) (by norm_num) (x := e) hq).mp
      (by simpa using h1)
    exact this
  have a2 : Int.log 2 q < e + 1 := by
    have := (Int.lt_zpow_iff_log_lt (b := 2) (by norm_num) (x := e + 1) hq).mp
      (by simpa using h2)
    exact this
  omega

theorem expo_eq_log {q : ℚ} (hq : 0 < q) : expo q = Int.log 2 q := by
  have hnum : 0 < q.num := Rat.num_pos.mpr hq
  have hn0 : q.num.natAbs ≠ 0 := by omega
  have hd0 : q.den ≠ 0 := q.den_nz
  have ea := log2Fuel_eq q.num.natAbs q.num.natAbs (Nat.le_refl _)
  have eb := log2Fuel_eq q.den q.den (Nat.le_refl _)
  have a1 := Nat.pow_log_le_self 2 hn0
  have a2 := Nat.lt_pow_succ_log_self (b := 2) (by norm_num) q.num.natAbs
  have b1 := Nat.pow_log_le_self 2 hd0
  have b2 := Nat.lt_pow_succ_log_self (b := 2) (by norm_num) q.den
  have hint : ((q.num.natAbs : ℕ) : ℤ) = q.num := Int.natAbs_of_nonneg hnum.le
  have hcast : ((q.num.natAbs : ℕ) : ℚ) = (q.num : ℚ) := by
    rw [← Int.cast_natCast, hint]
  have hq' : q = ((q.num.natAbs : ℕ) : ℚ) / (q.den : ℚ) := by
    rw [hcast]
    exact (Rat.num_div_den q).symm
  have hdpos : (0 : ℚ) < (q.den : ℚ) := by exact_mod_cast Nat.pos_of_ne_zero hd0
  have A1 : (2 : ℚ) ^ (Nat.log 2 q.num.natAbs) ≤ (q.num.natAbs : ℚ) := by exact_mod_cast a1
  have A2 : (q.num.natAbs : ℚ) < (2 : ℚ) ^ (Nat.log 2 q.num.natAbs + 1) := by
    exact_mod_cast a2
  have B1 : (2 : ℚ) ^ (Nat.log 2 q.den) ≤ (q.den : ℚ) := by exact_mod_cast b1
  have B2 : (q.den : ℚ) < (2 : ℚ) ^ (Nat.log 2 q.den + 1) := by exact_mod_cast b2
  have hup : q < (2 : ℚ) ^ ((Nat.log 2 q.num.natAbs : ℤ) - (Nat.log 2 q.den : ℤ) + 1) := by
    have e : (2 : ℚ) ^ ((Nat.log 2 q.num.natAbs : ℤ) - (Nat.log 2 q.den : ℤ) + 1) =
        (2 : ℚ) ^ (Nat.log 2 q.num.natAbs + 1) / (2 : ℚ) ^ (Nat.log 2 q.den) := by
      rw [← zpow_natCast, ← zpow_natCast, ← zpow_sub₀ (by norm_num : (2 : ℚ) ≠ 0)]
      congr 1; push_cast; ring
    have key : ((q.num.natAbs : ℕ) : ℚ) / (q.den : ℚ) <
        (2 : ℚ) ^ (Nat.log 2 q.num.natAbs + 1) / (2 : ℚ) ^ (Nat.log 2 q.den) := by
      rw [div_lt_div_iff₀ hdpos (by positivity)]
      calc (q.num.natAbs : ℚ) * 2 ^ Nat.log 2 q.den
          ≤ (q.num.natAbs : ℚ) * q.den := by
            apply mul_le_mul_of_nonneg_left B1 (by positivity)
        _ < 2 ^ (Nat.log 2 q.num.natAbs + 1) * q.den := by
            apply mul_lt_mul_of_pos_right A2 hdpos
    rw [e]
    exact lt_of_eq_of_lt hq' key
  have hlo : (2 : ℚ) ^ ((Nat.log 2 q.num.natAbs : ℤ) - (Nat.log 2 q.den : ℤ) - 1) ≤ q := by
    have e : (2 : ℚ) ^ ((Nat.log 2 q.num.natAbs : ℤ) - (Nat.log 2 q.den : ℤ) - 1) =
        (2 : ℚ) ^ (Nat.log 2 q.num.natAbs) / (2 : ℚ) ^ (Nat.log 2 q.den + 1) := by
      rw [← zpow_natCast, ← zpow_natCast, ← zpow_sub₀ (by norm_num : (2 : ℚ) ≠ 0)]
      congr 1; push_cast; ring
    have key : (2 : ℚ) ^ (Nat.log 2 q.num.natAbs) / (2 : ℚ) ^ (Nat.log 2 q.den + 1) ≤
        ((q.num.natAbs : ℕ) : ℚ) / (q.den : ℚ) := by
      rw [div_le_div_iff₀ (by positivity) hdpos]
      calc (2 : ℚ) ^ Nat.log 2 q.num.natAbs * q.den
          ≤ (q.num.natAbs : ℚ) * q.den := by
            apply mul_le_mul_of_nonneg_right A1 hdpos.le
        _ ≤ (q.num.natAbs : ℚ) * 2 ^ (Nat.log 2 q.den + 1) := by
            apply mul_le_mul_of_nonneg_left B2.le (by positivity)
    rw [e]
    exact le_of_le_of_eq key hq'.symm
  unfold expo
  rw [ea, eb]
  split_ifs with hc
  · exact (log_unique hq hc hup).symm
  · refine (log_unique hq hlo ?_).symm
    rw [sub_add_cancel]
    exact not_le.mp hc

theorem roundPos_def (v : ℚ) (hv : 0 < v) :
    roundPos v = (roundEven (v / 2 ^ (Int.log 2 v - 52)) : ℚ) * 2 ^ (Int.log 2 v - 52) := by
  unfold roundPos
  rw [expo_eq_log hv]

theorem roundEven_intCast (n : ℤ) : roundEven (n : ℚ) = n := by
  simp [roundEven]

theorem roundEven_bounds (x : ℚ) : ⌊x⌋ ≤ roundEven x ∧ roundEven x ≤ ⌊x⌋ + 1 := by
  unfold roundEven
  split_ifs <;> constructor <;> omega

theorem roundEven_mono {x y : ℚ} (h : x ≤ y) : roundEven x ≤ roundEven y := by
  have hf : ⌊x⌋ ≤ ⌊y⌋ := Int.floor_mono h
  rcases lt_or_eq_of_le hf with hlt | heq
  · have h1 := (roundEven_bounds x).2
    have h2 := (roundEven_bounds y).1
    omega
  · unfold roundEven
    rw [← heq]
    split_ifs <;> first | omega | (exfalso; linarith)

theorem roundEven_mono_cast {x y : ℚ} (h : x ≤ y) : (roundEven x : ℚ) ≤ roundEven y := by
  exact_mod_cast roundEven_mono h

theorem scaled_bounds {q : ℚ} (hq : 0 < q) :
    ((2 ^ 52 : ℤ) : ℚ) ≤ q / 2 ^ (Int.log 2 q - 52) ∧
      q / 2 ^ (Int.log 2 q - 52) < ((2 ^ 53 : ℤ) : ℚ) := by
  obtain ⟨h1, h2⟩ := log_bounds hq
  have hs := scale_pos (Int.log 2 q - 52)
  have e1 : (2 : ℚ) ^ Int.log 2 q = 2 ^ (52 : ℤ) * 2 ^ (Int.log 2 q - 52) := by
    rw [← zpow_add₀ (by norm_num : (2 : ℚ) ≠ 0)]; congr 1; ring
  have e2 : (2 : ℚ) ^ (Int.log 2 q + 1) = 2 ^ (53 : ℤ) * 2 ^ (Int.log 2 q - 52) := by
    rw [← zpow_add₀ (by norm_num : (2 : ℚ) ≠ 0)]; congr 1; ring
  constructor
  · rw [le_div_iff₀ hs]
    calc ((2 ^ 52 : ℤ) : ℚ) * 2 ^ (Int.log 2 q - 52)
        = 2 ^ (52 : ℤ) * 2 ^ (Int.log 2 q - 52) := by norm_num
      _ = 2 ^ Int.log 2 q := e1.symm
      _ ≤ q := h1
  · rw [div_lt_iff₀ hs]
    calc q < 2 ^ (Int.log 2 q + 1) := h2
      _ = 2 ^ (53 : ℤ) * 2 ^ (Int.log 2 q - 52) := e2
      _ = ((2 ^ 53 : ℤ) : ℚ) * 2 ^ (Int.log 2 q - 52) := by norm_num

theorem mant_bounds {q : ℚ} (hq : 0 < q) :
    (2 ^ 52 : ℤ) ≤ roundEven (q / 2 ^ (Int.log 2 q - 52)) ∧
      roundEven (q / 2 ^ (Int.log 2 q - 52)) ≤ (2 ^ 53 : ℤ) := by
  obtain ⟨h1, h2⟩ := scaled_bounds hq
  constructor
  · have := roundEven_mono h1
    rwa [roundEven_intCast] at this
  · have := roundEven_mono (le_of_lt h2)
    rwa [roundEven_intCast] at this

theorem roundPos_bounds {q : ℚ} (hq : 0 < q) :
    (2 : ℚ) ^ Int.log 2 q ≤ roundPos q ∧ roundPos q ≤ (2 : ℚ) ^ (Int.log 2 q + 1) := by
  obtain ⟨h1, h2⟩ := mant_bounds hq
  have hs := scale_pos (Int.log 2 q - 52)
  have e1 : (2 : ℚ) ^ Int.log 2 q = ((2 ^ 52 : ℤ) : ℚ) * 2 ^ (Int.log 2 q - 52) := by
    rw [show ((2 ^ 52 : ℤ) : ℚ) = 2 ^ (52 : ℤ) by norm_num,
      ← zpow_add₀ (by norm_num : (2 : ℚ) ≠ 0)]; congr 1; ring
  have e2 : (2 : ℚ) ^ (Int.log 2 q + 1) = ((2 ^ 53 : ℤ) : ℚ) * 2 ^ (Int.log 2 q - 52) := by
    rw [show ((2 ^ 53 : ℤ) : ℚ) = 2 ^ (53 : ℤ) by norm_num,
      ← zpow_add₀ (by norm_num : (2 : ℚ) ≠ 0)]; congr 1; ring
  rw [roundPos_def q hq]
  constructor
  · rw [e1]
    exact mul_le_mul_of_nonneg_right (by exact_mod_cast h1) hs.le
  · rw [e2]
    exact mul_le_mul_of_nonneg_right (by exact_mod_cast h2) hs.le

theorem roundPos_pos {q : ℚ} (hq : 0 < q) : 0 < roundPos q :=
  lt_of_lt_of_le (scale_pos _) (roundPos_bounds hq).1

theorem roundPos_mono {x y : ℚ} (hx : 0 < x) (h : x ≤ y) : roundPos x ≤ roundPos y := by
  have hy : 0 < y := lt_of_lt_of_le hx h
  have hl : Int.log 2 x ≤ Int.log 2 y := Int.log_mono_right hx h
  rcases lt_or_eq_of_le hl with hlt | heq
  · calc roundPos x ≤ (2 : ℚ) ^ (Int.log 2 x + 1) := (roundPos_bounds hx).2
      _ ≤ (2 : ℚ) ^ Int.log 2 y := zpow_le_zpow_right₀ (by norm_num) (by omega)
      _ ≤ roundPos y := (roundPos_bounds hy).1
  · rw [roundPos_def x hx, roundPos_def y hy, heq]
    have hs := scale_pos (Int.log 2 y - 52)
    apply mul_le_mul_of_nonneg_right _ hs.le
    apply roundEven_mono_cast
    exact div_le_div_of_nonneg_right h hs.le

theorem roundPos_idem {q : ℚ} (hq : 0 < q) : roundPos (roundPos q) = roundPos q := by
  obtain ⟨h1, h2⟩ := mant_bounds hq
  obtain ⟨b1, b2⟩ := roundPos_bounds hq
  have hv := roundPos_pos hq
  have hs := scale_pos (Int.log 2 q - 52)
  rcases lt_or_eq_of_le b2 with hlt | heq
  · have hlog : Int.log 2 (roundPos q) = Int.log 2 q := log_unique hv b1 hlt
    have : roundPos (roundPos q) =
        (roundEven (roundPos q / 2 ^ (Int.log 2 q - 52)) : ℚ) * 2 ^ (Int.log 2 q - 52) := by
      rw [roundPos_def (roundPos q) hv, hlog]
    rw [this]
    have hdiv : roundPos q / 2 ^ (Int.log 2 q - 52) =
        ((roundEven (q / 2 ^ (Int.log 2 q - 52)) : ℤ) : ℚ) := by
      rw [roundPos_def q hq]
      field_simp
    rw [hdiv, roundEven_intCast]
    exact (roundPos_def q hq).symm
  · have hlog : Int.log 2 (roundPos q) = Int.log 2 q + 1 := by
      rw [heq]
      have := Int.log_zpow (R := ℚ) (b := 2) (by norm_num) (Int.log 2 q + 1)
      simpa using this
    have : roundPos (roundPos q) =
        (roundEven (roundPos q / 2 ^ (Int.log 2 q + 1 - 52)) : ℚ) *
          2 ^ (Int.log 2 q + 1 - 52) := by
      rw [roundPos_def (roundPos q) hv, hlog]
    rw [this]
    have hdiv : roundPos q / 2 ^ (Int.log 2 q + 1 - 52) = ((2 ^ 52 : ℤ) : ℚ) := by
      rw [heq, ← zpow_sub₀ (by norm_num : (2 : ℚ) ≠ 0)]
      norm_num
    rw [hdiv, roundEven_intCast, heq]
    rw [show ((2 ^ 52 : ℤ) : ℚ) = 2 ^ (52 : ℤ) by norm_num,
      ← zpow_add₀ (by norm_num : (2 : ℚ) ≠ 0)]
    congr 1; ring

theorem round64_mono {x y : ℚ} (h : x ≤ y) : round64 x ≤ round64 y := by
  unfold round64
  rcases lt_trichotomy x 0 with hx | hx | hx <;> rcases lt_trichotomy y 0 with hy | hy | hy
  · rw [if_neg hx.ne, if_neg (not_lt.mpr hx.le), if_neg hy.ne, if_neg (not_lt.mpr hy.le)]
    exact neg_le_neg (roundPos_mono (by linarith) (by linarith))
  · rw [if_neg hx.ne, if_neg (not_lt.mpr hx.le), if_pos hy]
    have := roundPos_pos (q := -x) (by linarith)
    linarith
  · rw [if_neg hx.ne, if_neg (not_lt.mpr hx.le), if_neg hy.ne', if_pos hy]
    have := roundPos_pos (q := -x) (by linarith)
    have := roundPos_pos hy
    linarith
  · exfalso; linarith
  · rw [if_pos hx, if_pos hy]
  · rw [if_pos hx, if_neg hy.ne', if_pos hy]
    exact (roundPos_pos hy).le
  · exfalso; linarith
  · exfalso; linarith
  · rw [if_neg hx.ne', if_pos hx, if_neg hy.ne', if_pos hy]
    exact roundPos_mono hx h

theorem round64_idem (x : ℚ) : round64 (round64 x) = round64 x := by
  rcases lt_trichotomy x 0 with hx | hx | hx
  · have hp := roundPos_pos (q := -x) (by linarith)
    have e : round64 x = -roundPos (-x) := by
      unfold round64; rw [if_neg hx.ne, if_neg (not_lt.mpr hx.le)]
    rw [e]
    unfold round64
    rw [if_neg (by linarith), if_neg (by linarith), neg_neg, roundPos_idem (by linarith)]
  · subst hx; simp [round64]
  · have hp := roundPos_pos hx
    have e : round64 x = roundPos x := by
      unfold round64; rw [if_neg hx.ne', if_pos hx]
    rw [e]
    unfold round64
    rw [if_neg hp.ne', if_pos hp, roundPos_idem hx]

theorem round64_zero : round64 0 = 0 := by simp [round64]

theorem round64_nonneg {x : ℚ} (h : 0 ≤ x) : 0 ≤ round64 x := by
  have := round64_mono h
  rwa [round64_zero] at this

/-! ## Basic facts -/

theorem parse_eq_none_of_length {data : List (List Char)} (h : data.length ≠ 7) :
    parse data = none := by
  unfold parse
  split
  · simp at h
  · rfl

theorem parse_isSome_iff (data : List (List Char)) :
    (parse data).isSome = true ↔ data.length = 7 := by
  constructor
  · intro h
    by_contra hne
    rw [parse_eq_none_of_length hne] at h
    simp at h
  · intro h
    match data, h with
    | [_, _, _, _, _, _, _], _ => rfl

theorem toggleCVSystem_out (t : Tracker) :
    (toggleCVSystem t).2 =
      [Event.Forward 0, Event.Up 0, Event.Clockwise 0,
        Event.println (if t.tracking then Msg.notTracking else Msg.tracking)] := by
  unfold toggleCVSystem
  cases h : t.tracking <;> simp [h]

theorem toggleCVSystem_state (t : Tracker) :
    (toggleCVSystem t).1 =
      { t with tracking := !t.tracking, detectSize := !t.tracking } := by
  unfold toggleCVSystem
  cases h : t.tracking <;> simp [h]

theorem marker_of_handleButtons (p : Program) (s : State) (f : Sample)
    (a : OneShot) (h : a.marker ∈ (handleButtons p s f).2.1) :
    a.pressed f = true ∧ a.masked f = false ∧ a.stored s = false := by
  unfold handleButtons at h
  cases a <;> cases p <;> split_ifs at h <;>
    simp_all [OneShot.marker, OneShot.pressed, OneShot.masked, OneShot.stored,
      toggleCVSystem_out]

theorem stored_after_handleButtons (p : Program) (s : State) (f : Sample)
    (a : OneShot) (hp : a.pressed f = true) (hm : a.masked f = false) :
    a.stored (handleButtons p s f).1 = true := by
  unfold handleButtons
  cases a <;> cases p <;> split_ifs <;>
    simp_all [OneShot.pressed, OneShot.masked, OneShot.stored]

theorem stored_storeSticks (a : OneShot) (m : StickMode) (s : State) (x y : Int) :
    a.stored (storeSticks m s x y) = a.stored s := by
  cases a <;> cases m <;> rfl

theorem count_marker_handleButtons (p : Program) (s : State) (f : Sample)
    (a : OneShot) (hp : a.pressed f = true) (hm : a.masked f = false) :
    (handleButtons p s f).2.1.count a.marker = if a.stored s then 0 else 1 := by
  unfold handleButtons
  cases a <;> cases p <;> split_ifs <;>
    simp_all [OneShot.pressed, OneShot.masked, OneShot.stored, OneShot.marker,
      toggleCVSystem_out, List.count_cons]
  all_goals split_ifs
  all_goals simp

theorem idle_handleButtons (p : Program) (s : State) (f : Sample) (a : OneShot)
    (h : f.idle = true) : a.stored (handleButtons p s f).1 = false := by
  unfold handleButtons
  simp only [Sample.idle, Bool.and_eq_true, Bool.not_eq_true'] at h
  obtain ⟨⟨⟨h1, h2⟩, h3⟩, h4⟩ := h
  cases a <;> simp [h1, h2, h3, h4, OneShot.stored]

theorem pollTick_of_none (p : Program) (s : State) (r : Reply)
    (h : sampleOf r = none) :
    pollTick p s r =
      (s, (if r.err then [Event.println Msg.readError] else []) ++
        [Event.println Msg.underrun]) := by
  unfold sampleOf at h
  simp [pollTick, h]

theorem pollTick_of_some (p : Program) (s : State) (r : Reply) (f : Sample)
    (h : sampleOf r = some f) :
    pollTick p s r =
      ((handleSample p s f).1,
        (if r.err then [Event.println Msg.readError] else []) ++ (handleSample p s f).2) := by
  unfold sampleOf at h
  simp [pollTick, h]

theorem storeSticks_sticks (m : StickMode) (s : State) (x y : Int) :
    (m = StickMode.right →
      getLeftStick (storeSticks m s x y) = ⟨offset, offset⟩ ∧
      getRightStick (storeSticks m s x y) = ⟨x, y⟩) ∧
    (m = StickMode.left →
      getRightStick (storeSticks m s x y) = ⟨offset, offset⟩ ∧
      getLeftStick (storeSticks m s x y) = ⟨x, y⟩) := by
  cases m <;> simp [storeSticks, getLeftStick, getRightStick]

/-- One stick group reads exactly `(offset, offset)`. -/
theorem centred_after_sample (p : Program) (s : State) (r : Reply)
    (h : (sampleOf r).isSome = true) :
    getLeftStick (pollTick p s r).1 = ⟨offset, offset⟩ ∨
      getRightStick (pollTick p s r).1 = ⟨offset, offset⟩ := by
  obtain ⟨f, hf⟩ := Option.isSome_iff_exists.mp h
  rw [pollTick_of_some p s r f hf]
  simp only [handleSample]
  cases hm : (handleButtons p s f).2.2
  · left
    exact ((storeSticks_sticks _ _ _ _).1 rfl).1
  · right
    exact ((storeSticks_sticks _ _ _ _).2 rfl).1

theorem centred_preserved (p : Program) (s : State) (r : Reply)
    (h : getLeftStick s = ⟨offset, offset⟩ ∨ getRightStick s = ⟨offset, offset⟩) :
    getLeftStick (pollTick p s r).1 = ⟨offset, offset⟩ ∨
      getRightStick (pollTick p s r).1 = ⟨offset, offset⟩ := by
  cases hs : sampleOf r with
  | none => rw [pollTick_of_none p s r hs]; exact h
  | some f => exact centred_after_sample p s r (by simp [hs])

theorem centred_runTicks (p : Program) (rs : List Reply) :
    ∀ s : State,
      ((getLeftStick s = ⟨offset, offset⟩ ∨ getRightStick s = ⟨offset, offset⟩) ∨
        ∃ r ∈ rs, (sampleOf r).isSome = true) →
      getLeftStick (runTicks p s rs).1 = ⟨offset, offset⟩ ∨
        getRightStick (runTicks p s rs).1 = ⟨offset, offset⟩ := by
  induction rs with
  | nil =>
    intro s h
    rcases h with h | ⟨r, hr, _⟩
    · simpa [runTicks] using h
    · simp at hr
  | cons r rs ih =>
    intro s h
    simp only [runTicks]
    apply ih
    rcases h with h | ⟨q, hq, hsome⟩
    · exact Or.inl (centred_preserved p s r h)
    · rcases List.mem_cons.mp hq with rfl | hq
      · exact Or.inl (centred_after_sample p s q hsome)
      · exact Or.inr ⟨q, hq, hsome⟩

/-! ## Malformed lines -/

/-- C4: a line that does not split into exactly seven tokens leaves the four
stick cells, the four stored button flags and the rest of the state unchanged,
and the tick issues no actuator command (it only prints). -/
theorem underrun_tick_changes_nothing (p : Program) (s : State) (r : Reply)
    (h : (tokens r).length ≠ 7) :
    (pollTick p s r).1 = s ∧ ∀ e ∈ (pollTick p s r).2, e.isCommand = false := by
  have hn : sampleOf r = none := parse_eq_none_of_length h
  rw [pollTick_of_none p s r hn]
  refine ⟨rfl, ?_⟩
  intro e he
  cases hr : r.err <;> simp [hr] at he <;> rcases he with rfl | rfl <;> rfl

theorem underrun_tick_changes_nothing_witness :
    (tokens (line "100 200 true false false false\r\n")).length ≠ 7 ∧
      (pollTick Program.tinyfaces
          { State.init with rightX := 40000, rightY := 12, button2 := true }
          (line "100 200 true false false false\r\n")).1 =
        { State.init with rightX := 40000, rightY := 12, button2 := true } ∧
      ∀ e ∈ (pollTick Program.tinyfaces
          { State.init with rightX := 40000, rightY := 12, button2 := true }
          (line "100 200 true false false false\r\n")).2, e.isCommand = false :=
  ⟨by decide, underrun_tick_changes_nothing _ _ _ (by decide)⟩

/-! ## Dead zone of the mixer -/

/-- C6: for every axis value `v` with `|v - 32767| ≤ 500` each mixer switch
issues its zero command (`Forward 0`, `Right 0`, `Up 0`, `Clockwise 0`), which is
the only command of that axis in the tick; for `|v - 32767| > 500` each switch
takes one of its two non-default branches. -/
theorem mixer_dead_zone (VP : Int → Int → Int) (s : State) (v : Int) :
    mixerTick VP s =
      [rightYSwitch VP s.rightY, rightXSwitch VP s.rightX,
        leftYSwitch VP s.leftY, leftXSwitch VP s.leftX] ∧
    (|v - 32767| ≤ 500 →
      rightYSwitch VP v = Event.Forward 0 ∧ rightXSwitch VP v = Event.Right 0 ∧
      leftYSwitch VP v = Event.Up 0 ∧ leftXSwitch VP v = Event.Clockwise 0) ∧
    (|v - 32767| > 500 →
      rightYSwitch VP v =
        (if v < 32767 then Event.Backward (VP (wrapInt64 (v - 32767)) 32767)
          else Event.Forward (VP (wrapInt64 (v - 32767)) 32767)) ∧
      rightXSwitch VP v =
        (if v < 32767 then Event.Left (VP (wrapInt64 (v - 32767)) 32767)
          else Event.Right (VP (wrapInt64 (v - 32767)) 32767)) ∧
      leftYSwitch VP v =
        (if v < 32767 then Event.Down (VP (wrapInt64 (v - 32767)) 32767)
          else Event.Up (VP (wrapInt64 (v - 32767)) 32767)) ∧
      leftXSwitch VP v =
        (if v < 32767 then Event.CounterClockwise (VP (wrapInt64 (v - 32767)) 32767)
          else Event.Clockwise (VP (wrapInt64 (v - 32767)) 32767))) := by
  refine ⟨rfl, ?_, ?_⟩
  · intro h
    rw [abs_le] at h
    obtain ⟨h1, h2⟩ := h
    have a1 : ¬ v < offset - detente := by simp only [offset, detente]; omega
    have a2 : ¬ v > offset + detente := by simp only [offset, detente]; omega
    simp [rightYSwitch, rightXSwitch, leftYSwitch, leftXSwitch, a1, a2]
  · intro h
    rw [gt_iff_lt, lt_abs] at h
    simp only [rightYSwitch, rightXSwitch, leftYSwitch, leftXSwitch, offset, detente]
    rcases h with h | h
    · have a1 : ¬ v < 32267 := by omega
      have a2 : 33267 < v := by omega
      have a3 : ¬ v < 32767 := by omega
      simp [a1, a2, a3]
    · have a1 : v < 32267 := by omega
      have a2 : ¬ 33267 < v := by omega
      have a3 : v < 32767 := by omega
      simp [a1, a2, a3]

theorem mixer_dead_zone_witness :
    (|(33000 : Int) - 32767| ≤ 500 ∧
      rightYSwitch (fun d o => |d| * 100 / o) 33000 = Event.Forward 0 ∧
      rightXSwitch (fun d o => |d| * 100 / o) 33000 = Event.Right 0 ∧
      leftYSwitch (fun d o => |d| * 100 / o) 33000 = Event.Up 0 ∧
      leftXSwitch (fun d o => |d| * 100 / o) 33000 = Event.Clockwise 0) ∧
    (|(20000 : Int) - 32767| > 500 ∧
      rightYSwitch (fun d o => |d| * 100 / o) 20000 = Event.Backward 38) :=
  ⟨⟨by decide,
      (mixer_dead_zone (fun d o => |d| * 100 / o) State.init 33000).2.1 (by decide)⟩,
    ⟨by decide,
      ((mixer_dead_zone (fun d o => |d| * 100 / o) State.init 20000).2.2
        (by decide)).1.trans (by decide)⟩⟩

/-! ## Runs of the poll closure -/

theorem runTicks_append (p : Program) (xs ys : List Reply) :
    ∀ s : State,
      runTicks p s (xs ++ ys) =
        ((runTicks p (runTicks p s xs).1 ys).1,
          (runTicks p s xs).2 ++ (runTicks p (runTicks p s xs).1 ys).2) := by
  induction xs with
  | nil => intro s; simp [runTicks]
  | cons x xs ih => intro s; simp [runTicks, ih]

theorem runTicks_snoc_state (p : Program) (s : State) (xs : List Reply) (r : Reply) :
    (runTicks p s (xs ++ [r])).1 = (pollTick p (runTicks p s xs).1 r).1 := by
  simp [runTicks_append, runTicks]

theorem marker_not_readError (a : OneShot) (b : Bool) :
    a.marker ∉ (if b then [Event.println Msg.readError] else []) := by
  cases a <;> cases b <;> simp [OneShot.marker]

theorem marker_of_pollTick (p : Program) (s : State) (r : Reply) (f : Sample)
    (a : OneShot) (hf : sampleOf r = some f) (h : a.marker ∈ (pollTick p s r).2) :
    a.pressed f = true ∧ a.masked f = false ∧ a.stored s = false := by
  rw [pollTick_of_some p s r f hf] at h
  rcases List.mem_append.mp h with h | h
  · exact absurd h (marker_not_readError a r.err)
  · exact marker_of_handleButtons p s f a h

theorem stored_after_pollTick (p : Program) (s : State) (r : Reply) (f : Sample)
    (a : OneShot) (hf : sampleOf r = some f) (hp : a.pressed f = true)
    (hm : a.masked f = false) : a.stored (pollTick p s r).1 = true := by
  rw [pollTick_of_some p s r f hf]
  simp only [handleSample, stored_storeSticks]
  exact stored_after_handleButtons p s f a hp hm

theorem count_marker_pollTick (p : Program) (s : State) (r : Reply) (f : Sample)
    (a : OneShot) (hf : sampleOf r = some f) (hp : a.pressed f = true)
    (hm : a.masked f = false) :
    (pollTick p s r).2.count a.marker = if a.stored s then 0 else 1 := by
  rw [pollTick_of_some p s r f hf]
  simp only [List.count_append, handleSample]
  rw [List.count_eq_zero_of_not_mem (marker_not_readError a r.err), Nat.zero_add]
  exact count_marker_handleButtons p s f a hp hm

theorem stored_after_idle (p : Program) (s : State) (r : Reply) (f : Sample)
    (a : OneShot) (hf : sampleOf r = some f) (hi : f.idle = true) :
    a.stored (pollTick p s r).1 = false := by
  rw [pollTick_of_some p s r f hf]
  simp only [handleSample, stored_storeSticks]
  exact idle_handleButtons p s f a hi

theorem held_run_counts (p : Program) (a : OneShot) (run : List Reply) :
    ∀ s : State,
      (∀ r ∈ run, ∃ f, sampleOf r = some f ∧ a.pressed f = true ∧ a.masked f = false) →
      (runTicks p s run).2.map (List.count a.marker) =
        match run with
        | [] => []
        | _ :: tl => (if a.stored s then 0 else 1) :: List.replicate tl.length 0 := by
  induction run with
  | nil => intro s _; rfl
  | cons r rs ih =>
    intro s h
    obtain ⟨f, hf, hp, hm⟩ := h r (List.mem_cons_self _ _)
    have ht := ih (pollTick p s r).1 (fun q hq => h q (List.mem_cons_of_mem _ hq))
    simp only [runTicks, List.map_cons, count_marker_pollTick p s r f a hf hp hm]
    rw [ht]
    cases rs with
    | nil => rfl
    | cons q qs =>
      simp [stored_after_pollTick p s r f a hf hp hm, List.replicate_succ]

/-! ## One-shot actions -/

/-- C2 (amended): when a one-shot action is issued in the tick that processes
`cur`, its button is true in `cur` and no higher-priority button is; and in the
frame before, if there is one, that button was false or a higher-priority button
was true.  For `b1`, which nothing masks, this is a false-to-true transition. -/
theorem oneShot_only_when_newly_on_top (p : Program) (pre : List Reply) (cur : Reply)
    (f : Sample) (a : OneShot)
    (hwf : ∀ r ∈ pre, (sampleOf r).isSome = true) (hf : sampleOf cur = some f)
    (hfire : a.marker ∈ (pollTick p (runTicks p State.init pre).1 cur).2) :
    a.pressed f = true ∧ a.masked f = false ∧
      ∀ prev ∈ pre.getLast?, ∃ g, sampleOf prev = some g ∧
        (a.pressed g = false ∨ a.masked g = true) := by
  obtain ⟨hp, hm, hs⟩ := marker_of_pollTick p _ cur f a hf hfire
  refine ⟨hp, hm, ?_⟩
  intro prev hprev
  have hsplit : pre = pre.dropLast ++ [prev] := by
    have h1 := List.dropLast_append_getLast? prev hprev
    exact h1.symm
  have hmem : prev ∈ pre := by
    rw [hsplit]; simp
  obtain ⟨g, hg⟩ := Option.isSome_iff_exists.mp (hwf prev hmem)
  refine ⟨g, hg, ?_⟩
  rw [hsplit, runTicks_snoc_state] at hs
  by_contra hcon
  push_neg at hcon
  have h1 : a.pressed g = true := by simpa using hcon.1
  have h2 : a.masked g = false := by simpa using hcon.2
  rw [stored_after_pollTick p _ prev g a hg h1 h2] at hs
  exact Bool.noConfusion hs

theorem oneShot_only_when_newly_on_top_witness :
    (∀ r ∈ [line "0 0 true true false false false\r"], (sampleOf r).isSome = true) ∧
    sampleOf (line "0 0 false true false false false\r") =
      some ⟨0, 0, false, true, false, false, false⟩ ∧
    OneShot.Land.marker ∈
      (pollTick Program.tinyfaces
        (runTicks Program.tinyfaces State.init
          [line "0 0 true true false false false\r"]).1
        (line "0 0 false true false false false\r")).2 ∧
    (OneShot.Land.pressed ⟨0, 0, false, true, false, false, false⟩ = true ∧
      OneShot.Land.masked ⟨0, 0, false, true, false, false, false⟩ = false ∧
      ∀ prev ∈ [line "0 0 true true false false false\r"].getLast?,
        ∃ g, sampleOf prev = some g ∧
          (OneShot.Land.pressed g = false ∨ OneShot.Land.masked g = true)) :=
  ⟨by decide, by decide, by decide,
    oneShot_only_when_newly_on_top Program.tinyfaces
      [line "0 0 true true false false false\r"]
      (line "0 0 false true false false false\r")
      ⟨0, 0, false, true, false, false, false⟩ OneShot.Land
      (by decide) (by decide) (by decide)⟩

/-- C2 (as stated) fails: with `b1` and `b2` both true in the first frame and
only `b2` true in the second, `Land` is issued in the second tick although `b2`
was already true in the first frame. -/
theorem risingEdgeOnly_fails :
    (∀ r ∈ [line "0 0 true true false false false\r",
          line "0 0 false true false false false\r"], (sampleOf r).isSome = true) ∧
      ¬ RisingEdgeOnly Program.tinyfaces [line "0 0 true true false false false\r"]
        (line "0 0 false true false false false\r") := by
  refine ⟨by decide, ?_⟩
  intro h
  obtain ⟨_, h2⟩ := h OneShot.Land ⟨0, 0, false, true, false, false, false⟩
    (by decide) (by decide)
  obtain ⟨g, hg, hp⟩ := h2 (line "0 0 true true false false false\r") rfl
  have hg2 : sampleOf (line "0 0 true true false false false\r") =
      some ⟨0, 0, true, true, false, false, false⟩ := by decide
  rw [hg2] at hg
  cases hg
  exact Bool.noConfusion hp

/-- C3: from any state, after a frame in which none of `b1..b4` is true, a run
of `n ≥ 1` frames in which one button is the highest-priority true button
issues that button's action exactly once, in the first tick of the run; the
counts per tick, the idle frame included, are `0, 1, 0, ..., 0`. -/
theorem held_button_fires_once (p : Program) (s : State) (a : OneShot) (r0 : Reply)
    (f0 : Sample) (run : List Reply) (h0 : sampleOf r0 = some f0)
    (hidle : f0.idle = true)
    (hrun : ∀ r ∈ run, ∃ f, sampleOf r = some f ∧ a.pressed f = true ∧ a.masked f = false)
    (hne : run ≠ []) :
    (runTicks p s (r0 :: run)).2.map (List.count a.marker) =
      0 :: 1 :: List.replicate (run.length - 1) 0 := by
  have hz : (pollTick p s r0).2.count a.marker = 0 := by
    apply List.count_eq_zero_of_not_mem
    intro hmem
    have hp := (marker_of_pollTick p s r0 f0 a h0 hmem).1
    simp only [Sample.idle, Bool.and_eq_true, Bool.not_eq_true'] at hidle
    obtain ⟨⟨⟨h1, h2⟩, h3⟩, h4⟩ := hidle
    cases a <;> simp_all [OneShot.pressed]
  simp only [runTicks, List.map_cons, hz]
  rw [held_run_counts p a run _ hrun]
  cases run with
  | nil => exact absurd rfl hne
  | cons q qs => simp [stored_after_idle p s r0 f0 a h0 hidle]

theorem held_button_fires_once_witness :
    (sampleOf (line "0 0 false false false false false\r")).map Sample.idle = some true ∧
    (∀ r ∈ [line "0 0 true false false false false\r",
          line "0 0 true false false false false\r",
          line "0 0 true false false false false\r"],
        ∃ f, sampleOf r = some f ∧ OneShot.ToggleCVSystem.pressed f = true ∧
          OneShot.ToggleCVSystem.masked f = false) ∧
    (runTicks Program.tinyfaces State.init
        [line "0 0 false false false false false\r",
          line "0 0 true false false false false\r",
          line "0 0 true false false false false\r",
          line "0 0 true false false false false\r"]).2.map
        (List.count OneShot.ToggleCVSystem.marker) = [0, 1, 0, 0] :=
  ⟨by decide,
    fun _ hr => ⟨⟨0, 0, true, false, false, false, false⟩, by
      simp only [List.mem_cons, List.mem_singleton, List.not_mem_nil, or_false, or_self] at hr
      subst hr
      exact ⟨by decide, rfl, rfl⟩⟩,
    held_button_fires_once Program.tinyfaces State.init OneShot.ToggleCVSystem
      (line "0 0 false false false false false\r")
      ⟨0, 0, false, false, false, false, false⟩
      [line "0 0 true false false false false\r",
        line "0 0 true false false false false\r",
        line "0 0 true false false false false\r"]
      (by decide) (by decide)
      (fun _ hr => ⟨⟨0, 0, true, false, false, false, false⟩, by
        simp only [List.mem_cons, List.mem_singleton, List.not_mem_nil, or_false,
          or_self] at hr
        subst hr
        exact ⟨by decide, rfl, rfl⟩⟩)
      (by simp)⟩

/-! ## Stick groups -/

/-- C7: after a tick on a seven-token line with sample `(x, y)`: in mode
`right` the left group is `(32767, 32767)` and the right group is `(x, y)`; in
mode `left` the right group is `(32767, 32767)` and the left group is `(x, y)`.
Hence after any run that contains that tick one of the two groups reads exactly
`(32767, 32767)`. -/
theorem inactive_group_centred (p : Program) (s : State) (r : Reply) (f : Sample)
    (h : sampleOf r = some f) :
    ((handleButtons p s f).2.2 = StickMode.right →
      getLeftStick (pollTick p s r).1 = ⟨32767, 32767⟩ ∧
      getRightStick (pollTick p s r).1 = ⟨f.x, f.y⟩) ∧
    ((handleButtons p s f).2.2 = StickMode.left →
      getRightStick (pollTick p s r).1 = ⟨32767, 32767⟩ ∧
      getLeftStick (pollTick p s r).1 = ⟨f.x, f.y⟩) ∧
    ∀ (s0 : State) (pre post : List Reply),
      getLeftStick (runTicks p s0 (pre ++ r :: post)).1 = ⟨32767, 32767⟩ ∨
        getRightStick (runTicks p s0 (pre ++ r :: post)).1 = ⟨32767, 32767⟩ := by
  refine ⟨?_, ?_, ?_⟩
  · intro hm
    rw [pollTick_of_some p s r f h]
    exact (storeSticks_sticks _ _ _ _).1 hm
  · intro hm
    rw [pollTick_of_some p s r f h]
    exact (storeSticks_sticks _ _ _ _).2 hm
  · intro s0 pre post
    exact centred_runTicks p _ s0 (Or.inr ⟨r, by simp, by simp [h]⟩)

theorem inactive_group_centred_witness :
    sampleOf (line "100 200 false false false false true\r\n") =
      some ⟨100, 200, false, false, false, false, true⟩ ∧
    (handleButtons Program.tinydrone State.init
        ⟨100, 200, false, false, false, false, true⟩).2.2 = StickMode.left ∧
    getRightStick (pollTick Program.tinydrone State.init
        (line "100 200 false false false false true\r\n")).1 = ⟨32767, 32767⟩ ∧
    getLeftStick (pollTick Program.tinydrone State.init
        (line "100 200 false false false false true\r\n")).1 = ⟨100, 200⟩ :=
  ⟨by decide, by decide,
    (inactive_group_centred Program.tinydrone State.init
      (line "100 200 false false false false true\r\n")
      ⟨100, 200, false, false, false, false, true⟩ (by decide)).2.1 (by decide)⟩

/-! ## Axis tokens that are not numbers -/

theorem parseUintLoop_ok_digits (cs : List Char) :
    ∀ (n m : Nat), parseUintLoop n cs = .ok m →
      cs.all (fun d => (digitVal d).isSome) = true := by
  induction cs with
  | nil => intro n m _; rfl
  | cons c cs ih =>
    intro n m h
    unfold parseUintLoop at h
    cases hd : digitVal c with
    | none => simp [hd] at h
    | some d =>
      simp only [hd] at h
      split_ifs at h
      simp only [List.all_cons, hd, Option.isSome_some, Bool.true_and]
      exact ih _ _ h

theorem ParseUint_ok_digits (body : List Char) (m : Nat) (h : ParseUint body = .ok m) :
    (!body.isEmpty && body.all (fun d => (digitVal d).isSome)) = true := by
  cases body with
  | nil => simp [ParseUint] at h
  | cons c cs =>
    have := parseUintLoop_ok_digits (c :: cs) 0 m (by simpa [ParseUint] using h)
    simp only [List.isEmpty_cons, Bool.not_false, Bool.true_and]
    exact this

theorem Atoi_error_of_not_decimal (tok : List Char) (h : isDecimalInt tok = false) :
    (Atoi tok).2 ≠ none := by
  intro hnone
  cases tok with
  | nil => simp [Atoi] at hnone
  | cons c cs =>
    simp only [Atoi] at hnone
    simp only [isDecimalInt] at h
    split at hnone
    · simp at hnone
    · simp at hnone
    · rename_i un hun
      rw [ParseUint_ok_digits _ un hun] at h
      exact Bool.noConfusion h

theorem Atoi_syntax_error_value (tok : List Char) (h : (Atoi tok).2 = some NumErr.syn) :
    (Atoi tok).1 = 0 := by
  cases tok with
  | nil => rfl
  | cons c cs =>
    simp only [Atoi] at h ⊢
    split at h
    · rename_i hp
      simp [hp]
    · simp at h
    · split_ifs at h <;> simp at h

/-- C5 (amended): a seven-token line whose first or second token is not a
decimal integer is not discarded.  `Atoi` reports an error for that token, the
handler ignores it and uses the value `Atoi` returned (0 on a syntax error): the
tick produces a sample, handles the buttons and overwrites the sticks, the
active group with `(x, y)` and the other with `(32767, 32767)`. -/
theorem nonnumeric_axis_is_processed (p : Program) (s : State) (r : Reply)
    (d0 d1 d2 d3 d4 d5 d6 : List Char)
    (htok : tokens r = [d0, d1, d2, d3, d4, d5, d6])
    (hbad : isDecimalInt d0 = false ∨ isDecimalInt d1 = false) :
    ((Atoi d0).2 ≠ none ∨ (Atoi d1).2 ≠ none) ∧
    ((Atoi d0).2 = some NumErr.syn → (Atoi d0).1 = 0) ∧
    ((Atoi d1).2 = some NumErr.syn → (Atoi d1).1 = 0) ∧
    ∃ f : Sample, sampleOf r = some f ∧ f.x = (Atoi d0).1 ∧ f.y = (Atoi d1).1 ∧
      (pollTick p s r).1 = (handleSample p s f).1 ∧
      ((getLeftStick (pollTick p s r).1 = ⟨32767, 32767⟩ ∧
          getRightStick (pollTick p s r).1 = ⟨(Atoi d0).1, (Atoi d1).1⟩) ∨
        (getRightStick (pollTick p s r).1 = ⟨32767, 32767⟩ ∧
          getLeftStick (pollTick p s r).1 = ⟨(Atoi d0).1, (Atoi d1).1⟩)) := by
  refine ⟨?_, Atoi_syntax_error_value d0, Atoi_syntax_error_value d1, ?_⟩
  · rcases hbad with h | h
    · exact Or.inl (Atoi_error_of_not_decimal d0 h)
    · exact Or.inr (Atoi_error_of_not_decimal d1 h)
  · have hs : sampleOf r = some
        { x := (Atoi d0).1, y := (Atoi d1).1,
          b1 := decide (d2 = trueTok), b2 := decide (d3 = trueTok),
          b3 := decide (d4 = trueTok), b4 := decide (d5 = trueTok),
          b5 := decide (d6 = trueTok) } := by
      simp [sampleOf, htok, parse]
    refine ⟨_, hs, rfl, rfl, ?_, ?_⟩
    · rw [pollTick_of_some p s r _ hs]
    · rw [pollTick_of_some p s r _ hs]
      simp only [handleSample]
      cases hm : (handleButtons p s _).2.2
      · exact Or.inl ((storeSticks_sticks _ _ _ _).1 rfl)
      · exact Or.inr ((storeSticks_sticks _ _ _ _).2 rfl)

theorem nonnumeric_axis_is_processed_witness :
    tokens (line "abc 200 false false false false false\r\n") =
      ["abc".toList, "200".toList, "false".toList, "false".toList, "false".toList,
        "false".toList, "false".toList] ∧
    isDecimalInt "abc".toList = false ∧
    (((Atoi "abc".toList).2 ≠ none ∨ (Atoi "200".toList).2 ≠ none) ∧
      ((Atoi "abc".toList).2 = some NumErr.syn → (Atoi "abc".toList).1 = 0) ∧
      ((Atoi "200".toList).2 = some NumErr.syn → (Atoi "200".toList).1 = 0) ∧
      ∃ f : Sample,
        sampleOf (line "abc 200 false false false false false\r\n") = some f ∧
        f.x = (Atoi "abc".toList).1 ∧ f.y = (Atoi "200".toList).1 ∧
        (pollTick Program.tinydrone State.init
            (line "abc 200 false false false false false\r\n")).1 =
          (handleSample Program.tinydrone State.init f).1 ∧
        ((getLeftStick (pollTick Program.tinydrone State.init
              (line "abc 200 false false false false false\r\n")).1 = ⟨32767, 32767⟩ ∧
            getRightStick (pollTick Program.tinydrone State.init
              (line "abc 200 false false false false false\r\n")).1 =
              ⟨(Atoi "abc".toList).1, (Atoi "200".toList).1⟩) ∨
          (getRightStick (pollTick Program.tinydrone State.init
              (line "abc 200 false false false false false\r\n")).1 = ⟨32767, 32767⟩ ∧
            getLeftStick (pollTick Program.tinydrone State.init
              (line "abc 200 false false false false false\r\n")).1 =
              ⟨(Atoi "abc".toList).1, (Atoi "200".toList).1⟩))) :=
  ⟨by decide, by decide,
    nonnumeric_axis_is_processed Program.tinydrone State.init
      (line "abc 200 false false false false false\r\n")
      "abc".toList "200".toList "false".toList "false".toList "false".toList
      "false".toList "false".toList (by decide) (Or.inl (by decide))⟩

/-- C5 (as stated) fails: after a tick that stored `(100, 200)` in the right
group, the line `abc 200 false false false false false` yields a sample and
overwrites the right group with `(0, 200)`. -/
theorem discardsNonNumeric_fails :
    ¬ DiscardsNonNumeric Program.tinydrone
      (pollTick Program.tinydrone State.init
        (line "100 200 false false false false false\r\n")).1
      (line "abc 200 false false false false false\r\n") := by
  intro h
  have h1 := (h "abc".toList "200".toList "false".toList "false".toList "false".toList
    "false".toList "false".toList (by decide) (Or.inl (by decide))).1
  revert h1
  decide

/-! ## The scan loop -/

theorem scanRow_flags (W H : ℚ) (s : Tracker) (d : Detection) :
    (scanRow W H s d).tracking = s.tracking ∧
    (scanRow W H s d).detectSize = s.detectSize ∧
    (scanRow W H s d).refDistance = s.refDistance := by
  unfold scanRow
  split_ifs <;> simp

theorem foldl_scanRow_flags (W H : ℚ) (ds : List Detection) :
    ∀ s : Tracker,
      (ds.foldl (scanRow W H) s).tracking = s.tracking ∧
      (ds.foldl (scanRow W H) s).detectSize = s.detectSize ∧
      (ds.foldl (scanRow W H) s).refDistance = s.refDistance := by
  induction ds with
  | nil => intro s; simp
  | cons d ds ih =>
    intro s
    obtain ⟨h1, h2, h3⟩ := ih (scanRow W H s d)
    obtain ⟨g1, g2, g3⟩ := scanRow_flags W H s d
    simp only [List.foldl_cons]
    exact ⟨h1.trans g1, h2.trans g2, h3.trans g3⟩

theorem scan_flags (frame : Frame) (s : Tracker) :
    (scan frame s).tracking = s.tracking ∧
    (scan frame s).detectSize = s.detectSize ∧
    (scan frame s).refDistance = s.refDistance :=
  foldl_scanRow_flags _ _ _ s

theorem scanRow_not_accepted (W H : ℚ) (s : Tracker) (d : Detection)
    (h : d.accepted = false) : scanRow W H s d = s := by
  unfold Detection.accepted at h
  simp only [decide_eq_false_iff_not, not_not] at h
  unfold scanRow
  rw [if_pos h]

theorem scanRow_accepted (W H : ℚ) (s : Tracker) (d : Detection)
    (h : d.accepted = true) :
    (scanRow W H s d).box = clampedBox W H d ∧ (scanRow W H s d).detected = true := by
  unfold Detection.accepted at h
  simp only [decide_eq_true_eq] at h
  unfold scanRow
  rw [if_neg h]
  exact ⟨rfl, rfl⟩

theorem foldl_scanRow_none (W H : ℚ) (ds : List Detection) :
    ∀ s : Tracker, (∀ d ∈ ds, d.accepted = false) → ds.foldl (scanRow W H) s = s := by
  induction ds with
  | nil => intro s _; rfl
  | cons d ds ih =>
    intro s h
    simp only [List.foldl_cons]
    rw [scanRow_not_accepted W H s d (h d (List.mem_cons_self _ _))]
    exact ih s (fun e he => h e (List.mem_cons_of_mem _ he))

theorem foldl_scanRow_detected (W H : ℚ) (ds : List Detection) :
    ∀ s : Tracker, s.detected = true → (ds.foldl (scanRow W H) s).detected = true := by
  induction ds with
  | nil => intro s h; exact h
  | cons d ds ih =>
    intro s h
    simp only [List.foldl_cons]
    apply ih
    unfold scanRow
    split_ifs <;> simp [h]

theorem scan_detected_of_detected (frame : Frame) (s : Tracker) (h : s.detected = true) :
    (scan frame s).detected = true :=
  foldl_scanRow_detected _ _ _ s h

theorem scan_last_accepted (frame : Frame) (s : Tracker) (pre post : List Detection)
    (d : Detection) (hsplit : frame.detections = pre ++ d :: post)
    (hd : d.accepted = true) (hpost : ∀ e ∈ post, e.accepted = false) :
    (scan frame s).box = clampedBox frame.cols frame.rows d ∧
      (scan frame s).detected = true := by
  unfold scan
  rw [hsplit, List.foldl_append, List.foldl_cons, foldl_scanRow_none _ _ post _ hpost]
  exact scanRow_accepted _ _ _ d hd

theorem scan_no_accepted (frame : Frame) (s : Tracker)
    (h : ∀ d ∈ frame.detections, d.accepted = false) : scan frame s = s :=
  foldl_scanRow_none _ _ _ s h

/-! ## `trackFace` on an acted-upon frame -/

theorem trackFace_skip (sqrt : ℚ → ℚ) (s : Tracker) (frame : Frame)
    (h : s.tracking = false ∨ (scan frame s).detected = false) :
    trackFace sqrt s frame = (scan frame s, []) := by
  unfold trackFace
  have ht := (scan_flags frame s).1
  rcases h with h | h
  · simp [ht, h]
  · simp [h]

theorem trackFace_act (sqrt : ℚ → ℚ) (s : Tracker) (frame : Frame)
    (ht : s.tracking = true) (hd : (scan frame s).detected = true) :
    trackFace sqrt s frame =
      (calibrate sqrt (scan frame s),
        [xAxis frame.cols (calibrate sqrt (scan frame s)),
          yAxis frame.rows (calibrate sqrt (scan frame s)),
          zAxis sqrt (diagonal sqrt (calibrate sqrt (scan frame s)).box)
            (calibrate sqrt (scan frame s)).refDistance]) := by
  unfold trackFace
  have h1 := (scan_flags frame s).1
  simp [h1, ht, hd, diagonal, Tracker.box]

theorem calibrate_box (sqrt : ℚ → ℚ) (s : Tracker) :
    (calibrate sqrt s).box = s.box ∧ (calibrate sqrt s).tracking = s.tracking ∧
      (calibrate sqrt s).detected = s.detected ∧ (calibrate sqrt s).detectSize = false := by
  unfold calibrate
  cases h : s.detectSize <;> simp [h, Tracker.box]

theorem calibrate_refDistance (sqrt : ℚ → ℚ) (s : Tracker) :
    (calibrate sqrt s).refDistance =
      if s.detectSize then diagonal sqrt s.box else s.refDistance := by
  unfold calibrate
  cases h : s.detectSize <;> simp [h, Tracker.box, diagonal]

theorem xAxis_box (W : ℚ) (s t : Tracker) (h : s.box = t.box) : xAxis W s = xAxis W t := by
  simp only [Tracker.box, Prod.mk.injEq] at h
  simp [xAxis, h.1, h.2.2.1]

theorem xAxis_isYaw (W : ℚ) (s : Tracker) : (xAxis W s).isYaw = true := by
  unfold xAxis
  split_ifs <;> rfl

theorem yAxis_kind (H : ℚ) (s : Tracker) :
    (yAxis H s).isYaw = false ∧ (yAxis H s).isDistance = false := by
  unfold yAxis
  split_ifs <;> exact ⟨rfl, rfl⟩

theorem zAxis_kind (sqrt : ℚ → ℚ) (d r : ℚ) :
    (zAxis sqrt d r).isYaw = false ∧ (zAxis sqrt d r).isDistance = true := by
  unfold zAxis
  split_ifs <;> exact ⟨rfl, rfl⟩

theorem xAxis_not_distance (W : ℚ) (s : Tracker) : (xAxis W s).isDistance = false := by
  unfold xAxis
  split_ifs <;> rfl

theorem distTolerance_eq (sqrt : ℚ → ℚ) :
    distTolerance sqrt = round64 (c005 * round64 (sqrt 250000)) := by
  have h : round64
      (round64 (round64 ((frameX : ℚ) - 0) * round64 ((frameX : ℚ) - 0)) +
        round64 (round64 ((frameY : ℚ) - 0) * round64 ((frameY : ℚ) - 0))) = 250000 := by
    decide!
  simp only [distTolerance, dist]
  rw [h]

theorem distTolerance_nonneg (sqrt : ℚ → ℚ) (h : 0 ≤ sqrt 250000) :
    0 ≤ distTolerance sqrt := by
  rw [distTolerance_eq]
  have hc : (0 : ℚ) ≤ c005 := by decide!
  exact round64_nonneg (mul_nonneg hc (round64_nonneg h))

theorem round64_diagonal (sqrt : ℚ → ℚ) (b : ℚ × ℚ × ℚ × ℚ) :
    round64 (diagonal sqrt b) = diagonal sqrt b := by
  unfold diagonal dist
  exact round64_idem _

theorem zAxis_self (sqrt : ℚ → ℚ) (d : ℚ) (h : 0 ≤ sqrt 250000) (hd : round64 d = d) :
    zAxis sqrt d d = Event.Forward 0 := by
  have ht : 0 ≤ distTolerance sqrt := distTolerance_nonneg sqrt h
  have h1 : round64 (d - distTolerance sqrt) ≤ d := by
    have := round64_mono (show d - distTolerance sqrt ≤ d by linarith)
    rwa [hd] at this
  have h2 : d ≤ round64 (d + distTolerance sqrt) := by
    have := round64_mono (show d ≤ d + distTolerance sqrt by linarith)
    rwa [hd] at this
  unfold zAxis
  rw [if_neg (not_lt.mpr h1), if_neg (not_lt.mpr h2)]

/-- C10: on every frame acted upon (tracking enabled, `detected` set) exactly
one yaw command is issued: `CounterClockwise 50` if the box's right edge is left
of `W/2`, otherwise `Clockwise 50` if its left edge is right of `W/2`, otherwise
`Clockwise 0`. -/
theorem yaw_command (sqrt : ℚ → ℚ) (s : Tracker) (frame : Frame)
    (ht : s.tracking = true) (hd : (scan frame s).detected = true) :
    (trackFace sqrt s frame).2.filter Event.isYaw =
      [if (scan frame s).right < (frame.cols : ℚ) / 2 then Event.CounterClockwise 50
        else if (scan frame s).left > (frame.cols : ℚ) / 2 then Event.Clockwise 50
        else Event.Clockwise 0] := by
  rw [trackFace_act sqrt s frame ht hd]
  simp only [List.filter_cons, xAxis_isYaw, (yAxis_kind _ _).1, (zAxis_kind _ _ _).1,
    if_true, List.filter_nil]
  rw [xAxis_box _ _ (scan frame s) (calibrate_box sqrt _).1]
  simp [xAxis]

theorem yaw_command_witness :
    (toggleCVSystem Tracker.init).1.tracking = true ∧
    (scan ⟨400, 300, [⟨9 / 10, 1 / 10, 1 / 4, 1 / 4, 1 / 2⟩]⟩
      (toggleCVSystem Tracker.init).1).detected = true ∧
    (trackFace sqrtQ (toggleCVSystem Tracker.init).1
        ⟨400, 300, [⟨9 / 10, 1 / 10, 1 / 4, 1 / 4, 1 / 2⟩]⟩).2.filter Event.isYaw =
      [Event.CounterClockwise 50] :=
  ⟨by decide, by decide!,
    (yaw_command sqrtQ (toggleCVSystem Tracker.init).1
      ⟨400, 300, [⟨9 / 10, 1 / 10, 1 / 4, 1 / 4, 1 / 2⟩]⟩ (by decide) (by decide!)).trans
      (by decide!)⟩

/-! ## Calibration -/

/-- C9 (amended): on the frame in which calibration happens (tracking enabled,
`detected` set, `detectSize` set) `refDistance` is set to the diagonal of the
box, the flag is cleared, and the z-axis switch still runs: it compares the
diagonal with itself and issues `Forward 0`, the only distance command of the
frame; no `Backward` and no non-zero `Forward` is issued. -/
theorem calibration_frame (sqrt : ℚ → ℚ) (s : Tracker) (frame : Frame)
    (ht : s.tracking = true) (hd : (scan frame s).detected = true)
    (hs : s.detectSize = true) (hsqrt : 0 ≤ sqrt 250000) :
    (trackFace sqrt s frame).1.refDistance = diagonal sqrt (scan frame s).box ∧
    (trackFace sqrt s frame).1.detectSize = false ∧
    (trackFace sqrt s frame).2.filter Event.isDistance = [Event.Forward 0] := by
  have hs2 : (scan frame s).detectSize = true := (scan_flags frame s).2.1.trans hs
  rw [trackFace_act sqrt s frame ht hd]
  refine ⟨?_, (calibrate_box sqrt _).2.2.2, ?_⟩
  · simp [calibrate_refDistance, hs2]
  · simp only [List.filter_cons, xAxis_not_distance, (yAxis_kind _ _).2,
      (zAxis_kind _ _ _).2, if_true, List.filter_nil]
    rw [calibrate_refDistance, if_pos hs2, (calibrate_box sqrt _).1]
    simp [zAxis_self sqrt _ hsqrt (round64_diagonal sqrt _)]

theorem calibration_frame_witness :
    (toggleCVSystem Tracker.init).1.tracking = true ∧
    (scan ⟨400, 300, [⟨9 / 10, 1 / 4, 1 / 4, 1 / 2, 1 / 2⟩]⟩
      (toggleCVSystem Tracker.init).1).detected = true ∧
    (toggleCVSystem Tracker.init).1.detectSize = true ∧
    0 ≤ sqrtQ 250000 ∧
    (trackFace sqrtQ (toggleCVSystem Tracker.init).1
        ⟨400, 300, [⟨9 / 10, 1 / 4, 1 / 4, 1 / 2, 1 / 2⟩]⟩).1.refDistance = 125 ∧
    (trackFace sqrtQ (toggleCVSystem Tracker.init).1
        ⟨400, 300, [⟨9 / 10, 1 / 4, 1 / 4, 1 / 2, 1 / 2⟩]⟩).1.detectSize = false ∧
    (trackFace sqrtQ (toggleCVSystem Tracker.init).1
        ⟨400, 300, [⟨9 / 10, 1 / 4, 1 / 4, 1 / 2, 1 / 2⟩]⟩).2.filter Event.isDistance =
      [Event.Forward 0] :=
  ⟨by decide, by decide!, by decide, by decide!,
    ((calibration_frame sqrtQ (toggleCVSystem Tracker.init).1
      ⟨400, 300, [⟨9 / 10, 1 / 4, 1 / 4, 1 / 2, 1 / 2⟩]⟩
      (by decide) (by decide!) (by decide) (by decide!)).1).trans (by decide!),
    (calibration_frame sqrtQ (toggleCVSystem Tracker.init).1
      ⟨400, 300, [⟨9 / 10, 1 / 4, 1 / 4, 1 / 2, 1 / 2⟩]⟩
      (by decide) (by decide!) (by decide) (by decide!)).2⟩

/-- C9 (as stated) fails: right after enabling, a frame with one accepted row
calibrates and also issues `Forward 0`. -/
theorem noDistanceCommandOnCalibration_fails :
    ¬ NoDistanceCommandOnCalibration sqrtQ (toggleCVSystem Tracker.init).1
      ⟨400, 300, [⟨9 / 10, 1 / 4, 1 / 4, 1 / 2, 1 / 2⟩]⟩ := by
  intro h
  have h1 := h (by decide) (by decide!) (by decide) (Event.Forward 0) (by decide!)
  exact Bool.noConfusion h1

/-! ## The sticky `detected` flag -/

/-- C1 (code evaluated at the failing input): tracking is enabled, one frame
with an accepted row is processed, and then a frame whose only row has
confidence 3/10.  That last frame has no detection with confidence at least
1/2, yet `trackFace` issues three commands from the box of the earlier frame. -/
theorem stale_box_still_commands :
    (⟨400, 300, [⟨3 / 10, 1 / 2, 1 / 2, 3 / 4, 3 / 4⟩]⟩ : Frame).detections.any
      Detection.accepted = false ∧
    (trackFace sqrtQ
      (trackFace sqrtQ (toggleCVSystem Tracker.init).1
        ⟨400, 300, [⟨9 / 10, 1 / 10, 1 / 4, 1 / 4, 1 / 2⟩]⟩).1
      ⟨400, 300, [⟨3 / 10, 1 / 2, 1 / 2, 3 / 4, 3 / 4⟩]⟩).2 =
      [Event.CounterClockwise 50, Event.Up 0, Event.Forward 0] := by
  constructor
  · decide!
  · decide!

/-! ## Calibration over a run of frames -/

theorem runFrames_append (sqrt : ℚ → ℚ) (xs ys : List Frame) :
    ∀ s : Tracker,
      runFrames sqrt s (xs ++ ys) =
        ((runFrames sqrt (runFrames sqrt s xs).1 ys).1,
          (runFrames sqrt s xs).2 ++ (runFrames sqrt (runFrames sqrt s xs).1 ys).2) := by
  induction xs with
  | nil => intro s; simp [runFrames]
  | cons x xs ih => intro s; simp [runFrames, ih]

theorem countAssign_append (sqrt : ℚ → ℚ) (xs ys : List Frame) :
    ∀ s : Tracker,
      countAssign sqrt s (xs ++ ys) =
        countAssign sqrt s xs + countAssign sqrt (runFrames sqrt s xs).1 ys := by
  induction xs with
  | nil => intro s; simp [countAssign, runFrames]
  | cons x xs ih => intro s; simp [countAssign, runFrames, ih, Nat.add_assoc]

theorem trackFace_tracking (sqrt : ℚ → ℚ) (s : Tracker) (frame : Frame) :
    (trackFace sqrt s frame).1.tracking = s.tracking := by
  cases ht : s.tracking
  · rw [trackFace_skip sqrt s frame (Or.inl ht)]
    exact (scan_flags frame s).1.trans ht
  · cases hd : (scan frame s).detected
    · rw [trackFace_skip sqrt s frame (Or.inr hd)]
      exact (scan_flags frame s).1.trans ht
    · rw [trackFace_act sqrt s frame ht hd, (calibrate_box sqrt _).2.1]
      exact (scan_flags frame s).1.trans ht

theorem trackFace_detectSize (sqrt : ℚ → ℚ) (s : Tracker) (frame : Frame) :
    (trackFace sqrt s frame).1.detectSize = (s.detectSize && !assigns s frame) := by
  have hf := scan_flags frame s
  cases ht : s.tracking
  · rw [trackFace_skip sqrt s frame (Or.inl ht)]
    simp [assigns, hf.1, hf.2.1, ht]
  · cases hd : (scan frame s).detected
    · rw [trackFace_skip sqrt s frame (Or.inr hd)]
      simp [assigns, hf.2.1, hd]
    · rw [trackFace_act sqrt s frame ht hd, (calibrate_box sqrt _).2.2.2]
      simp [assigns, hf.1, hf.2.1, ht, hd]

theorem assigns_false_of_not_waiting (s : Tracker) (frame : Frame)
    (h : s.detectSize = false) : assigns s frame = false := by
  simp [assigns, (scan_flags frame s).2.1, h]

theorem countAssign_of_not_waiting (sqrt : ℚ → ℚ) (fs : List Frame) :
    ∀ s : Tracker, s.detectSize = false → countAssign sqrt s fs = 0 := by
  induction fs with
  | nil => intro s _; rfl
  | cons f fs ih =>
    intro s h
    have h1 : (trackFace sqrt s f).1.detectSize = false := by
      rw [trackFace_detectSize, h]; rfl
    simp [countAssign, assigns_false_of_not_waiting s f h, ih _ h1]

theorem countAssign_le_one (sqrt : ℚ → ℚ) (fs : List Frame) :
    ∀ s : Tracker, countAssign sqrt s fs ≤ 1 := by
  induction fs with
  | nil => intro s; simp [countAssign]
  | cons f fs ih =>
    intro s
    simp only [countAssign]
    cases ha : assigns s f
    · simpa using ih _
    · have h1 : (trackFace sqrt s f).1.detectSize = false := by
        rw [trackFace_detectSize, ha]; simp
      simp [countAssign_of_not_waiting sqrt fs _ h1]

theorem countAssign_of_still_waiting (sqrt : ℚ → ℚ) (fs : List Frame) :
    ∀ s : Tracker, (runFrames sqrt s fs).1.detectSize = true →
      countAssign sqrt s fs = 0 := by
  induction fs with
  | nil => intro s _; rfl
  | cons f fs ih =>
    intro s h
    simp only [runFrames] at h
    have hrest := ih _ h
    have hmid : (trackFace sqrt s f).1.detectSize = true := by
      by_contra hc
      have hc2 : (trackFace sqrt s f).1.detectSize = false := by simpa using hc
      have hz : ∀ (gs : List Frame) (t : Tracker), t.detectSize = false →
          (runFrames sqrt t gs).1.detectSize = false := by
        intro gs
        induction gs with
        | nil => intro t ht; exact ht
        | cons g gs ihg =>
          intro t ht
          simp only [runFrames]
          apply ihg
          rw [trackFace_detectSize, ht]; rfl
      rw [hz fs _ hc2] at h
      exact Bool.noConfusion h
    rw [trackFace_detectSize] at hmid
    have ha : assigns s f = false := by
      cases hq : assigns s f
      · rfl
      · rw [hq] at hmid; simp at hmid
    simp [countAssign, ha, hrest]

/-- What holds from the calibrating frame on: tracking on, `detected` set, the
flag cleared, and `refDistance` equal to `ref`. -/
theorem calibrated_step (sqrt : ℚ → ℚ) (ref : ℚ) (t : Tracker) (g : Frame)
    (h : t.tracking = true ∧ t.detected = true ∧ t.detectSize = false ∧
      t.refDistance = ref) :
    ((trackFace sqrt t g).1.tracking = true ∧ (trackFace sqrt t g).1.detected = true ∧
      (trackFace sqrt t g).1.detectSize = false ∧
      (trackFace sqrt t g).1.refDistance = ref) ∧
    (trackFace sqrt t g).2.filter Event.isDistance =
      [zAxis sqrt (diagonal sqrt (scan g t).box) ref] := by
  obtain ⟨h1, h2, h3, h4⟩ := h
  have hd : (scan g t).detected = true := scan_detected_of_detected g t h2
  have hf := scan_flags g t
  have hs : (scan g t).detectSize = false := hf.2.1.trans h3
  have hr : (calibrate sqrt (scan g t)).refDistance = ref := by
    rw [calibrate_refDistance, hs]
    exact hf.2.2.trans h4
  rw [trackFace_act sqrt t g h1 hd]
  refine ⟨⟨?_, ?_, (calibrate_box sqrt _).2.2.2, hr⟩, ?_⟩
  · rw [(calibrate_box sqrt _).2.1]; exact hf.1.trans h1
  · rw [(calibrate_box sqrt _).2.2.1]; exact hd
  · simp only [List.filter_cons, xAxis_not_distance, (yAxis_kind _ _).2,
      (zAxis_kind _ _ _).2, if_true, List.filter_nil]
    rw [hr, (calibrate_box sqrt _).1]
    simp

theorem calibrated_run (sqrt : ℚ → ℚ) (ref : ℚ) (gs : List Frame) :
    ∀ t : Tracker,
      (t.tracking = true ∧ t.detected = true ∧ t.detectSize = false ∧
        t.refDistance = ref) →
      ((runFrames sqrt t gs).1.tracking = true ∧ (runFrames sqrt t gs).1.detected = true ∧
        (runFrames sqrt t gs).1.detectSize = false ∧
        (runFrames sqrt t gs).1.refDistance = ref) := by
  induction gs with
  | nil => intro t h; exact h
  | cons g gs ih =>
    intro t h
    simp only [runFrames]
    exact ih _ (calibrated_step sqrt ref t g h).1

theorem runFrames_tracking (sqrt : ℚ → ℚ) (gs : List Frame) :
    ∀ t : Tracker, (runFrames sqrt t gs).1.tracking = t.tracking := by
  induction gs with
  | nil => intro t; rfl
  | cons g gs ih =>
    intro t
    simp only [runFrames]
    rw [ih, trackFace_tracking]

theorem calibrating_frame (sqrt : ℚ → ℚ) (t : Tracker) (f : Frame)
    (dpre dpost : List Detection) (d : Detection)
    (ht : t.tracking = true) (hw : t.detectSize = true)
    (hsplit : f.detections = dpre ++ d :: dpost) (hd : d.accepted = true)
    (hlast : ∀ e ∈ dpost, e.accepted = false) :
    assigns t f = true ∧
    ((trackFace sqrt t f).1.tracking = true ∧ (trackFace sqrt t f).1.detected = true ∧
      (trackFace sqrt t f).1.detectSize = false ∧
      (trackFace sqrt t f).1.refDistance = diagonal sqrt (clampedBox f.cols f.rows d)) ∧
    (trackFace sqrt t f).2.filter Event.isDistance =
      [zAxis sqrt (diagonal sqrt (scan f t).box)
        (diagonal sqrt (clampedBox f.cols f.rows d))] := by
  obtain ⟨hbox, hdet⟩ := scan_last_accepted f t dpre dpost d hsplit hd hlast
  have hf := scan_flags f t
  have hs : (scan f t).detectSize = true := hf.2.1.trans hw
  have hr : (calibrate sqrt (scan f t)).refDistance =
      diagonal sqrt (clampedBox f.cols f.rows d) := by
    rw [calibrate_refDistance, if_pos hs, hbox]
  refine ⟨?_, ?_, ?_⟩
  · simp [assigns, hf.1, ht, hdet, hs]
  · rw [trackFace_act sqrt t f ht hdet]
    refine ⟨?_, ?_, (calibrate_box sqrt _).2.2.2, hr⟩
    · rw [(calibrate_box sqrt _).2.1]; exact hf.1.trans ht
    · rw [(calibrate_box sqrt _).2.2.1]; exact hdet
  · rw [trackFace_act sqrt t f ht hdet]
    simp only [List.filter_cons, xAxis_not_distance, (yAxis_kind _ _).2,
      (zAxis_kind _ _ _).2, if_true, List.filter_nil]
    rw [hr, (calibrate_box sqrt _).1]
    simp

/-- C8 (amended): after `toggleCVSystem` enables tracking, `refDistance` is
assigned at most once by the frames that follow.  If the flag is still set when
a frame `f` with an accepted row arrives, `f` is the frame that assigns it, the
assignment happens exactly once in the run, the value is the diagonal of the
clamped box of the last accepted row of `f`, and in `f` and in every later frame
the z-axis switch compares that frame's diagonal against this value. -/
theorem refDistance_calibrated_once (sqrt : ℚ → ℚ) (s : Tracker) (pre : List Frame)
    (f : Frame) (post : List Frame) (dpre dpost : List Detection) (d : Detection)
    (hoff : s.tracking = false)
    (hwait : (runFrames sqrt (toggleCVSystem s).1 pre).1.detectSize = true)
    (hsplit : f.detections = dpre ++ d :: dpost) (hd : d.accepted = true)
    (hlast : ∀ e ∈ dpost, e.accepted = false) :
    (∀ fs : List Frame, countAssign sqrt (toggleCVSystem s).1 fs ≤ 1) ∧
    assigns (runFrames sqrt (toggleCVSystem s).1 pre).1 f = true ∧
    countAssign sqrt (toggleCVSystem s).1 (pre ++ f :: post) = 1 ∧
    (runFrames sqrt (toggleCVSystem s).1 (pre ++ f :: post)).1.refDistance =
      diagonal sqrt (clampedBox f.cols f.rows d) ∧
    ∀ (a : List Frame) (g : Frame) (b : List Frame), f :: post = a ++ g :: b →
      (trackFace sqrt (runFrames sqrt (toggleCVSystem s).1 (pre ++ a)).1 g).2.filter
          Event.isDistance =
        [zAxis sqrt
          (diagonal sqrt (scan g (runFrames sqrt (toggleCVSystem s).1 (pre ++ a)).1).box)
          (diagonal sqrt (clampedBox f.cols f.rows d))] := by
  have hon : (toggleCVSystem s).1.tracking = true := by
    rw [toggleCVSystem_state]; simp [hoff]
  have htp : (runFrames sqrt (toggleCVSystem s).1 pre).1.tracking = true := by
    rw [runFrames_tracking]; exact hon
  obtain ⟨hass, hinv, hout⟩ :=
    calibrating_frame sqrt _ f dpre dpost d htp hwait hsplit hd hlast
  refine ⟨fun fs => countAssign_le_one sqrt fs _, hass, ?_, ?_, ?_⟩
  · rw [countAssign_append, countAssign_of_still_waiting sqrt pre _ hwait]
    simp [countAssign, hass, countAssign_of_not_waiting sqrt post _ hinv.2.2.1]
  · rw [runFrames_append]
    simp only [runFrames]
    exact (calibrated_run sqrt _ post _ hinv).2.2.2
  · intro a g b hab
    cases a with
    | nil =>
      simp only [List.nil_append, List.cons.injEq] at hab
      obtain ⟨rfl, _⟩ := hab
      simpa using hout
    | cons a0 a =>
      simp only [List.cons_append, List.cons.injEq] at hab
      obtain ⟨rfl, _⟩ := hab
      have hst : (runFrames sqrt (toggleCVSystem s).1 (pre ++ f :: a)).1 =
          (runFrames sqrt
            (trackFace sqrt (runFrames sqrt (toggleCVSystem s).1 pre).1 f).1 a).1 := by
        rw [runFrames_append]; simp only [runFrames]
      rw [hst]
      exact (calibrated_step sqrt _ _ g (calibrated_run sqrt _ a _ hinv)).2

theorem refDistance_calibrated_once_witness :
    Tracker.init.tracking = false ∧
    (runFrames sqrtQ (toggleCVSystem Tracker.init).1
      [⟨400, 300, [⟨3 / 10, 0, 0, 1 / 2, 1 / 2⟩]⟩]).1.detectSize = true ∧
    (⟨400, 300, [⟨9 / 10, 0, 0, 3 / 10, 3 / 10⟩, ⟨6 / 10, 0, 0, 3 / 5, 3 / 5⟩]⟩ :
        Frame).detections =
      [⟨9 / 10, 0, 0, 3 / 10, 3 / 10⟩] ++ ⟨6 / 10, 0, 0, 3 / 5, 3 / 5⟩ :: [] ∧
    Detection.accepted ⟨6 / 10, 0, 0, 3 / 5, 3 / 5⟩ = true ∧
    countAssign sqrtQ (toggleCVSystem Tracker.init).1
      ([⟨400, 300, [⟨3 / 10, 0, 0, 1 / 2, 1 / 2⟩]⟩] ++
        ⟨400, 300, [⟨9 / 10, 0, 0, 3 / 10, 3 / 10⟩, ⟨6 / 10, 0, 0, 3 / 5, 3 / 5⟩]⟩ ::
          [⟨400, 300, []⟩]) = 1 ∧
    (runFrames sqrtQ (toggleCVSystem Tracker.init).1
      ([⟨400, 300, [⟨3 / 10, 0, 0, 1 / 2, 1 / 2⟩]⟩] ++
        ⟨400, 300, [⟨9 / 10, 0, 0, 3 / 10, 3 / 10⟩, ⟨6 / 10, 0, 0, 3 / 5, 3 / 5⟩]⟩ ::
          [⟨400, 300, []⟩])).1.refDistance = 300 :=
  ⟨rfl, by decide!, rfl, by decide!,
    (refDistance_calibrated_once sqrtQ Tracker.init
      [⟨400, 300, [⟨3 / 10, 0, 0, 1 / 2, 1 / 2⟩]⟩]
      ⟨400, 300, [⟨9 / 10, 0, 0, 3 / 10, 3 / 10⟩, ⟨6 / 10, 0, 0, 3 / 5, 3 / 5⟩]⟩
      [⟨400, 300, []⟩] [⟨9 / 10, 0, 0, 3 / 10, 3 / 10⟩] [] ⟨6 / 10, 0, 0, 3 / 5, 3 / 5⟩
      rfl (by decide!) rfl (by decide!) (by simp)).2.2.1,
    ((refDistance_calibrated_once sqrtQ Tracker.init
      [⟨400, 300, [⟨3 / 10, 0, 0, 1 / 2, 1 / 2⟩]⟩]
      ⟨400, 300, [⟨9 / 10, 0, 0, 3 / 10, 3 / 10⟩, ⟨6 / 10, 0, 0, 3 / 5, 3 / 5⟩]⟩
      [⟨400, 300, []⟩] [⟨9 / 10, 0, 0, 3 / 10, 3 / 10⟩] [] ⟨6 / 10, 0, 0, 3 / 5, 3 / 5⟩
      rfl (by decide!) rfl (by decide!) (by simp)).2.2.2.1).trans (by decide!)⟩

/-- C8 (as stated) fails: right after enabling from the start state, a frame
with two accepted rows calibrates to the diagonal of the second row (300), not
to that of the first accepted detection (150). -/
theorem calibratesOnFirstDetection_fails :
    ¬ CalibratesOnFirstDetection sqrtQ Tracker.init
      [⟨400, 300, [⟨9 / 10, 0, 0, 3 / 10, 3 / 10⟩, ⟨6 / 10, 0, 0, 3 / 5, 3 / 5⟩]⟩] := by
  intro h
  have h1 := (h ⟨400, 300, [⟨9 / 10, 0, 0, 3 / 10, 3 / 10⟩, ⟨6 / 10, 0, 0, 3 / 5, 3 / 5⟩]⟩
    ⟨9 / 10, 0, 0, 3 / 10, 3 / 10⟩ (by decide!)).2
  revert h1
  decide!

/-! ## Toggling the tracker -/

/-- C18: a `toggleCVSystem` call that starts with tracking off issues
`Forward 0`, `Up 0`, `Clockwise 0`, once each and nothing else to the drone, and
leaves `tracking` and `detectSize` true; every call negates `tracking`, so two
calls in a row restore it. -/
theorem toggle_enables_and_alternates (s : Tracker) :
    (s.tracking = false →
      (toggleCVSystem s).2.filter Event.isCommand =
        [Event.Forward 0, Event.Up 0, Event.Clockwise 0] ∧
      (toggleCVSystem s).1.tracking = true ∧ (toggleCVSystem s).1.detectSize = true) ∧
    (toggleCVSystem s).1.tracking = (!s.tracking) ∧
    (toggleCVSystem (toggleCVSystem s).1).1.tracking = s.tracking := by
  refine ⟨?_, ?_, ?_⟩
  · intro h
    rw [toggleCVSystem_out, toggleCVSystem_state]
    simp [h, Event.isCommand]
  · rw [toggleCVSystem_state]
  · simp [toggleCVSystem_state]

theorem toggle_enables_and_alternates_witness :
    Tracker.init.tracking = false ∧
    (toggleCVSystem Tracker.init).2.filter Event.isCommand =
      [Event.Forward 0, Event.Up 0, Event.Clockwise 0] ∧
    (toggleCVSystem Tracker.init).1.tracking = true ∧
    (toggleCVSystem Tracker.init).1.detectSize = true :=
  ⟨rfl, (toggle_enables_and_alternates Tracker.init).1 rfl⟩

/-! ## Stick mode -/

/-- C19: on a seven-token line in which one of `b1..b4` is true the stick mode
is `right` whatever `b5` is: the sample goes to the right group and the left
group is set to `(32767, 32767)`.  The mode is `left` exactly when `b5` is true
and `b1..b4` are all false. -/
theorem buttons_force_right_mode (p : Program) (s : State) (r : Reply) (f : Sample)
    (h : sampleOf r = some f) :
    (f.idle = false →
      (handleButtons p s f).2.2 = StickMode.right ∧
      getRightStick (pollTick p s r).1 = ⟨f.x, f.y⟩ ∧
      getLeftStick (pollTick p s r).1 = ⟨32767, 32767⟩) ∧
    ((handleButtons p s f).2.2 = StickMode.left ↔
      (f.b5 = true ∧ f.b1 = false ∧ f.b2 = false ∧ f.b3 = false ∧ f.b4 = false)) := by
  have hmode : (handleButtons p s f).2.2 = StickMode.left ↔
      (f.b5 = true ∧ f.b1 = false ∧ f.b2 = false ∧ f.b3 = false ∧ f.b4 = false) := by
    unfold handleButtons
    cases p <;> split_ifs <;> simp_all
  refine ⟨?_, hmode⟩
  intro hi
  have hr : (handleButtons p s f).2.2 = StickMode.right := by
    cases hm : (handleButtons p s f).2.2
    · rfl
    · obtain ⟨_, h1, h2, h3, h4⟩ := hmode.mp hm
      simp [Sample.idle, h1, h2, h3, h4] at hi
  rw [pollTick_of_some p s r f h]
  have hs := (storeSticks_sticks (handleButtons p s f).2.2 (handleButtons p s f).1 f.x f.y).1 hr
  exact ⟨hr, hs.2, hs.1⟩

theorem buttons_force_right_mode_witness :
    sampleOf (line "100 200 false true false false true\r\n") =
      some ⟨100, 200, false, true, false, false, true⟩ ∧
    Sample.idle ⟨100, 200, false, true, false, false, true⟩ = false ∧
    (handleButtons Program.tinyfaces State.init
      ⟨100, 200, false, true, false, false, true⟩).2.2 = StickMode.right ∧
    getRightStick (pollTick Program.tinyfaces State.init
      (line "100 200 false true false false true\r\n")).1 = ⟨100, 200⟩ ∧
    getLeftStick (pollTick Program.tinyfaces State.init
      (line "100 200 false true false false true\r\n")).1 = ⟨32767, 32767⟩ :=
  ⟨by decide, by decide,
    (buttons_force_right_mode Program.tinyfaces State.init
      (line "100 200 false true false false true\r\n")
      ⟨100, 200, false, true, false, false, true⟩ (by decide)).1 (by decide)⟩

/-! ## One action per tick -/

theorem count_marker_out (p : Program) (s : State) (r : Reply) (f : Sample)
    (a : OneShot) (hf : sampleOf r = some f) :
    (pollTick p s r).2.count a.marker = (handleButtons p s f).2.1.count a.marker := by
  rw [pollTick_of_some p s r f hf]
  simp only [List.count_append, handleSample]
  rw [List.count_eq_zero_of_not_mem (marker_not_readError a r.err), Nat.zero_add]

theorem handleButtons_counts (p : Program) (s : State) (f : Sample) :
    (handleButtons p s f).2.1.count OneShot.ToggleCVSystem.marker +
      (handleButtons p s f).2.1.count OneShot.Land.marker +
      (handleButtons p s f).2.1.count OneShot.Flip.marker +
      (handleButtons p s f).2.1.count OneShot.TakeOff.marker ≤ 1 := by
  unfold handleButtons
  cases p <;> split_ifs <;>
    simp [OneShot.marker, toggleCVSystem_out, List.count_cons]
  all_goals split_ifs
  all_goals simp

/-- C15: on a seven-token line, from any stored button state, one poll tick
issues at most one of the four actions, and an action that is issued belongs to
the lowest-numbered true button: its button is true and no higher-priority
button is.  A lower-priority button that is also true causes nothing. -/
theorem at_most_one_action (p : Program) (s : State) (r : Reply) (f : Sample)
    (h : sampleOf r = some f) :
    (pollTick p s r).2.count OneShot.ToggleCVSystem.marker +
      (pollTick p s r).2.count OneShot.Land.marker +
      (pollTick p s r).2.count OneShot.Flip.marker +
      (pollTick p s r).2.count OneShot.TakeOff.marker ≤ 1 ∧
    ∀ a : OneShot, a.marker ∈ (pollTick p s r).2 →
      a.pressed f = true ∧ a.masked f = false := by
  constructor
  · simp only [count_marker_out p s r f _ h]
    exact handleButtons_counts p s f
  · intro a ha
    exact ⟨(marker_of_pollTick p s r f a h ha).1, (marker_of_pollTick p s r f a h ha).2.1⟩

theorem at_most_one_action_witness :
    sampleOf (line "0 0 false true true true true\r") =
      some ⟨0, 0, false, true, true, true, true⟩ ∧
    (pollTick Program.tinydrone State.init
      (line "0 0 false true true true true\r")).2 =
      [Event.println Msg.land, Event.Land] ∧
    (pollTick Program.tinydrone State.init
        (line "0 0 false true true true true\r")).2.count OneShot.ToggleCVSystem.marker +
      (pollTick Program.tinydrone State.init
        (line "0 0 false true true true true\r")).2.count OneShot.Land.marker +
      (pollTick Program.tinydrone State.init
        (line "0 0 false true true true true\r")).2.count OneShot.Flip.marker +
      (pollTick Program.tinydrone State.init
        (line "0 0 false true true true true\r")).2.count OneShot.TakeOff.marker ≤ 1 :=
  ⟨by decide, by decide,
    (at_most_one_action Program.tinydrone State.init
      (line "0 0 false true true true true\r")
      ⟨0, 0, false, true, true, true, true⟩ (by decide)).1⟩

/-! ## Which row is acted upon -/

/-- C16: when the row list of a frame has a row with confidence at least 1/2,
the box held after the scan loop is the clamped, scaled box of the last such
row, whatever the rows before it are; it is the box the three switches act on;
and a row with confidence below 1/2 leaves the tracking variables as they
are. -/
theorem last_accepted_row_wins (sqrt : ℚ → ℚ) (s : Tracker) (frame : Frame)
    (pre post : List Detection) (d : Detection)
    (hsplit : frame.detections = pre ++ d :: post) (hd : d.accepted = true)
    (hpost : ∀ e ∈ post, e.accepted = false) :
    (scan frame s).box = clampedBox frame.cols frame.rows d ∧
    (trackFace sqrt s frame).1.box = clampedBox frame.cols frame.rows d ∧
    (s.tracking = true →
      (trackFace sqrt s frame).2 =
        [xAxis frame.cols (trackFace sqrt s frame).1,
          yAxis frame.rows (trackFace sqrt s frame).1,
          zAxis sqrt (diagonal sqrt (clampedBox frame.cols frame.rows d))
            (trackFace sqrt s frame).1.refDistance]) ∧
    ∀ (W H : ℚ) (t : Tracker) (e : Detection), e.confidence < 1 / 2 →
      scanRow W H t e = t := by
  obtain ⟨hbox, hdet⟩ := scan_last_accepted frame s pre post d hsplit hd hpost
  refine ⟨hbox, ?_, ?_, ?_⟩
  · cases ht : s.tracking
    · rw [trackFace_skip sqrt s frame (Or.inl ht)]
      exact hbox
    · rw [trackFace_act sqrt s frame ht hdet, (calibrate_box sqrt _).1]
      exact hbox
  · intro ht
    rw [trackFace_act sqrt s frame ht hdet, (calibrate_box sqrt _).1, hbox]
  · intro W H t e he
    unfold scanRow
    rw [if_pos he]

theorem last_accepted_row_wins_witness :
    (⟨400, 300, [⟨9 / 10, 0, 0, 3 / 10, 3 / 10⟩, ⟨6 / 10, 0, 0, 3 / 5, 3 / 5⟩,
        ⟨4 / 10, 0, 0, 1, 1⟩]⟩ : Frame).detections =
      [⟨9 / 10, 0, 0, 3 / 10, 3 / 10⟩] ++ ⟨6 / 10, 0, 0, 3 / 5, 3 / 5⟩ ::
        [⟨4 / 10, 0, 0, 1, 1⟩] ∧
    Detection.accepted ⟨6 / 10, 0, 0, 3 / 5, 3 / 5⟩ = true ∧
    Detection.accepted ⟨4 / 10, 0, 0, 1, 1⟩ = false ∧
    (scan ⟨400, 300, [⟨9 / 10, 0, 0, 3 / 10, 3 / 10⟩, ⟨6 / 10, 0, 0, 3 / 5, 3 / 5⟩,
        ⟨4 / 10, 0, 0, 1, 1⟩]⟩ Tracker.init).box = (0, 0, 240, 180) :=
  ⟨rfl, by decide!, by decide!,
    ((last_accepted_row_wins sqrtQ Tracker.init
      ⟨400, 300, [⟨9 / 10, 0, 0, 3 / 10, 3 / 10⟩, ⟨6 / 10, 0, 0, 3 / 5, 3 / 5⟩,
        ⟨4 / 10, 0, 0, 1, 1⟩]⟩
      [⟨9 / 10, 0, 0, 3 / 10, 3 / 10⟩] [⟨4 / 10, 0, 0, 1, 1⟩]
      ⟨6 / 10, 0, 0, 3 / 5, 3 / 5⟩ rfl (by decide!)
      (fun e he => by
        simp only [List.mem_singleton] at he
        subst he
        decide!)).1).trans (by decide!)⟩

/-! ## Outside the dead zone -/

theorem wrapInt64_of_range (n : Int) (h1 : -(2 ^ 63) ≤ n) (h2 : n < 2 ^ 63) :
    wrapInt64 n = n := by
  unfold wrapInt64
  rw [Int.emod_eq_of_lt (by omega) (by omega)]
  omega

/-- C17: for an axis value `v` outside the dead zone each mixer switch issues
one command, the only one of its axis in the tick, whose magnitude is
`ValidatePitch` of the machine difference `v - 32767` and 32767 and whose
direction is the sign of `v - 32767`: `Forward`, `Right`, `Up`, `Clockwise` when
positive, `Backward`, `Left`, `Down`, `CounterClockwise` when negative.  The
machine difference is the mathematical one whenever it fits the Go `int`. -/
theorem mixer_outside_dead_zone (VP : Int → Int → Int) (s : State) (v : Int)
    (h : 500 < |v - 32767|) :
    mixerTick VP s =
      [rightYSwitch VP s.rightY, rightXSwitch VP s.rightX,
        leftYSwitch VP s.leftY, leftXSwitch VP s.leftX] ∧
    (0 < v - 32767 →
      rightYSwitch VP v = Event.Forward (VP (wrapInt64 (v - 32767)) 32767) ∧
      rightXSwitch VP v = Event.Right (VP (wrapInt64 (v - 32767)) 32767) ∧
      leftYSwitch VP v = Event.Up (VP (wrapInt64 (v - 32767)) 32767) ∧
      leftXSwitch VP v = Event.Clockwise (VP (wrapInt64 (v - 32767)) 32767)) ∧
    (v - 32767 < 0 →
      rightYSwitch VP v = Event.Backward (VP (wrapInt64 (v - 32767)) 32767) ∧
      rightXSwitch VP v = Event.Left (VP (wrapInt64 (v - 32767)) 32767) ∧
      leftYSwitch VP v = Event.Down (VP (wrapInt64 (v - 32767)) 32767) ∧
      leftXSwitch VP v = Event.CounterClockwise (VP (wrapInt64 (v - 32767)) 32767)) ∧
    (-(2 ^ 63) + 32767 ≤ v → v < 2 ^ 63 → wrapInt64 (v - 32767) = v - 32767) := by
  rw [lt_abs] at h
  refine ⟨rfl, ?_, ?_, ?_⟩
  · intro hpos
    have a1 : ¬ v < 32267 := by omega
    have a2 : 33267 < v := by omega
    simp [rightYSwitch, rightXSwitch, leftYSwitch, leftXSwitch, offset, detente, a1, a2]
  · intro hneg
    have a1 : v < 32267 := by omega
    have a2 : ¬ 33267 < v := by omega
    simp [rightYSwitch, rightXSwitch, leftYSwitch, leftXSwitch, offset, detente, a1, a2]
  · intro h1 h2
    exact wrapInt64_of_range _ (by omega) (by omega)

theorem mixer_outside_dead_zone_witness :
    500 < |(65534 : Int) - 32767| ∧ (0 : Int) < 65534 - 32767 ∧
    rightYSwitch (fun d o => min (|d| * 100 / o) 100) 65534 = Event.Forward 100 ∧
    500 < |(20000 : Int) - 32767| ∧ (20000 : Int) - 32767 < 0 ∧
    leftXSwitch (fun d o => min (|d| * 100 / o) 100) 20000 = Event.CounterClockwise 38 :=
  ⟨by decide, by decide,
    ((mixer_outside_dead_zone (fun d o => min (|d| * 100 / o) 100) State.init 65534
      (by decide)).2.1 (by decide)).1.trans (by decide),
    by decide, by decide,
    ((mixer_outside_dead_zone (fun d o => min (|d| * 100 / o) 100) State.init 20000
      (by decide)).2.2.1 (by decide)).2.2.2.trans (by decide)⟩

/-! ## The distance axis -/

/-- C11 (amended): on an acted-upon frame after calibration (`detectSize`
clear), with `distance` the `float64` diagonal of the box and the tolerance
`0.05 * sqrt (400^2 + 300^2) = 25`, exactly one distance command is issued:
`Forward 20` if `distance` is below the `float64` difference
`refDistance - 25`, `Backward 20` if it is above the `float64` sum
`refDistance + 25`, `Forward 0` otherwise; a distance within 25 of
`refDistance` gives magnitude 0. -/
theorem distance_command (sqrt : ℚ → ℚ) (s : Tracker) (frame : Frame)
    (ht : s.tracking = true) (hd : (scan frame s).detected = true)
    (hs : s.detectSize = false) (hsqrt : sqrt 250000 = 500) :
    distTolerance sqrt = 25 ∧
    diagonal sqrt (scan frame s).box =
      round64 (sqrt (round64
        (round64 (round64 ((scan frame s).right - (scan frame s).left) *
            round64 ((scan frame s).right - (scan frame s).left)) +
          round64 (round64 ((scan frame s).bottom - (scan frame s).top) *
            round64 ((scan frame s).bottom - (scan frame s).top))))) ∧
    (trackFace sqrt s frame).2.filter Event.isDistance =
      [if diagonal sqrt (scan frame s).box < round64 (s.refDistance - 25) then
          Event.Forward 20
        else if diagonal sqrt (scan frame s).box > round64 (s.refDistance + 25) then
          Event.Backward 20
        else Event.Forward 0] ∧
    (|diagonal sqrt (scan frame s).box - s.refDistance| ≤ 25 →
      (trackFace sqrt s frame).2.filter Event.isDistance = [Event.Forward 0]) := by
  have htol : distTolerance sqrt = 25 := by
    rw [distTolerance_eq, hsqrt]
    decide!
  have hf := scan_flags frame s
  have hs2 : (scan frame s).detectSize = false := hf.2.1.trans hs
  have hout : (trackFace sqrt s frame).2.filter Event.isDistance =
      [if diagonal sqrt (scan frame s).box < round64 (s.refDistance - 25) then
          Event.Forward 20
        else if diagonal sqrt (scan frame s).box > round64 (s.refDistance + 25) then
          Event.Backward 20
        else Event.Forward 0] := by
    rw [trackFace_act sqrt s frame ht hd]
    simp only [List.filter_cons, xAxis_not_distance, (yAxis_kind _ _).2,
      (zAxis_kind _ _ _).2, if_true, List.filter_nil]
    rw [calibrate_refDistance, hs2, (calibrate_box sqrt _).1, hf.2.2]
    simp [zAxis, htol]
  refine ⟨htol, rfl, hout, ?_⟩
  intro hin
  rw [abs_le] at hin
  have hfix := round64_diagonal sqrt (scan frame s).box
  have h1 : round64 (s.refDistance - 25) ≤ diagonal sqrt (scan frame s).box := by
    have := round64_mono (show s.refDistance - 25 ≤ diagonal sqrt (scan frame s).box by
      linarith)
    rwa [hfix] at this
  have h2 : diagonal sqrt (scan frame s).box ≤ round64 (s.refDistance + 25) := by
    have := round64_mono (show diagonal sqrt (scan frame s).box ≤ s.refDistance + 25 by
      linarith)
    rwa [hfix] at this
  rw [hout, if_neg (not_lt.mpr h1), if_neg (not_lt.mpr h2)]

theorem distance_command_witness :
    (trackFace sqrtQ (toggleCVSystem Tracker.init).1
      ⟨400, 300, [⟨9 / 10, 0, 0, 3 / 5, 3 / 5⟩]⟩).1.tracking = true ∧
    (trackFace sqrtQ (toggleCVSystem Tracker.init).1
      ⟨400, 300, [⟨9 / 10, 0, 0, 3 / 5, 3 / 5⟩]⟩).1.detectSize = false ∧
    (trackFace sqrtQ (toggleCVSystem Tracker.init).1
      ⟨400, 300, [⟨9 / 10, 0, 0, 3 / 5, 3 / 5⟩]⟩).1.refDistance = 300 ∧
    sqrtQ 250000 = 500 ∧
    (trackFace sqrtQ
      (trackFace sqrtQ (toggleCVSystem Tracker.init).1
        ⟨400, 300, [⟨9 / 10, 0, 0, 3 / 5, 3 / 5⟩]⟩).1
      ⟨400, 300, [⟨9 / 10, 0, 0, 3 / 10, 3 / 10⟩]⟩).2.filter Event.isDistance =
      [Event.Forward 20] :=
  ⟨by decide!, by decide!, by decide!, by decide!,
    ((distance_command sqrtQ
      (trackFace sqrtQ (toggleCVSystem Tracker.init).1
        ⟨400, 300, [⟨9 / 10, 0, 0, 3 / 5, 3 / 5⟩]⟩).1
      ⟨400, 300, [⟨9 / 10, 0, 0, 3 / 10, 3 / 10⟩]⟩
      (by decide!) (by decide!) (by decide!) (by decide!)).2.2.1).trans (by decide!)⟩

/-- C11 (as stated) fails.  Tracking is enabled and calibrated on the box
`(0, 0, 152351/262144, 183915/524288)`, which sets `refDistance` to
`8978342116044799 / 2^45`; the next frame has the box
`(0, 0, 610633/1048576, 272095/524288)` with diagonal `2406726420475 / 2^33`,
which is `refDistance + 25 + 2^-45`.  The diagonal is above the exact sum, but
the `float64` sum `refDistance + 25` rounds up to the diagonal itself, so the
switch takes its default case and issues `Forward 0`, not `Backward 20`. -/
theorem exactDistanceThresholds_fails :
    (trackFace sqrtHi (toggleCVSystem Tracker.init).1
      ⟨400, 300, [⟨9 / 10, 0, 0, 152351 / 262144, 183915 / 524288⟩]⟩).1.refDistance =
      8978342116044799 / 35184372088832 ∧
    diagonal sqrtHi
      (scan ⟨400, 300, [⟨9 / 10, 0, 0, 610633 / 1048576, 272095 / 524288⟩]⟩
        (trackFace sqrtHi (toggleCVSystem Tracker.init).1
          ⟨400, 300, [⟨9 / 10, 0, 0, 152351 / 262144, 183915 / 524288⟩]⟩).1).box =
      8978342116044799 / 35184372088832 + 25 + 1 / 35184372088832 ∧
    (trackFace sqrtHi
      (trackFace sqrtHi (toggleCVSystem Tracker.init).1
        ⟨400, 300, [⟨9 / 10, 0, 0, 152351 / 262144, 183915 / 524288⟩]⟩).1
      ⟨400, 300, [⟨9 / 10, 0, 0, 610633 / 1048576, 272095 / 524288⟩]⟩).2.filter
        Event.isDistance = [Event.Forward 0] ∧
    ¬ ExactDistanceThresholds sqrtHi
      (trackFace sqrtHi (toggleCVSystem Tracker.init).1
        ⟨400, 300, [⟨9 / 10, 0, 0, 152351 / 262144, 183915 / 524288⟩]⟩).1
      ⟨400, 300, [⟨9 / 10, 0, 0, 610633 / 1048576, 272095 / 524288⟩]⟩ := by
  refine ⟨by decide!, by decide!, by decide!, ?_⟩
  intro h
  have h1 := h (by decide!) (by decide!) (by decide!)
  revert h1
  decide!

/-! ## Stick cells at program start -/

/-- C12 (code evaluated at program start): before any joystick line both stick
groups read `(0, 0)`, not `(32767, 32767)`, and a mixer round takes the
non-default branch of all four switches, with the magnitude `ValidatePitch`
gives for `-32767`. -/
theorem start_sticks_not_centred (VP : Int → Int → Int) :
    getLeftStick State.init = ⟨0, 0⟩ ∧ getRightStick State.init = ⟨0, 0⟩ ∧
    mixerTick VP State.init =
      [Event.Backward (VP (-32767) 32767), Event.Left (VP (-32767) 32767),
        Event.Down (VP (-32767) 32767), Event.CounterClockwise (VP (-32767) 32767)] := by
  refine ⟨rfl, rfl, ?_⟩
  have hw : wrapInt64 (-32767) = -32767 := by decide
  simp [mixerTick, rightStickTick, leftStickTick, getLeftStick, getRightStick,
    State.init, rightYSwitch, rightXSwitch, leftYSwitch, leftXSwitch, hw, offset,
    detente]

/-! ## The `b1` latch -/

theorem button1_stays_false (p : Program) (s : State) (r : Reply) (g : Sample)
    (hg : sampleOf r = some g) (hb : g.b1 = false) (hs : s.button1 = false) :
    (pollTick p s r).1.button1 = false := by
  rw [pollTick_of_some p s r g hg]
  have h1 : (handleButtons p s g).1.button1 = false := by
    unfold handleButtons
    split_ifs <;> simp_all
  have h2 := stored_storeSticks OneShot.ToggleCVSystem (handleButtons p s g).2.2
    (handleButtons p s g).1 g.x g.y
  simp only [OneShot.stored] at h2
  simp only [handleSample]
  rw [h2, h1]

theorem button1_false_through (p : Program) (mid : List Reply) :
    ∀ s : State, s.button1 = false →
      (∀ r ∈ mid, ∃ g, sampleOf r = some g ∧ g.b1 = false) →
      (runTicks p s mid).1.button1 = false := by
  induction mid with
  | nil => intro s hs _; exact hs
  | cons r rs ih =>
    intro s hs h
    obtain ⟨g, hg, hb⟩ := h r (List.mem_cons_self _ _)
    simp only [runTicks]
    exact ih _ (button1_stays_false p s r g hg hb hs)
      (fun q hq => h q (List.mem_cons_of_mem _ hq))

theorem flags_after_handleButtons (p : Program) (s : State) (g : Sample) :
    (g.idle = true →
      (handleButtons p s g).1.button1 = g.b1 ∧ (handleButtons p s g).1.button2 = g.b2 ∧
      (handleButtons p s g).1.button3 = g.b3 ∧ (handleButtons p s g).1.button4 = g.b4) ∧
    ∀ a : OneShot, a.pressed g = true → a.masked g = false →
      a.stored (handleButtons p s g).1 = true ∧
      ∀ b : OneShot, b ≠ a → b.stored (handleButtons p s g).1 = b.stored s := by
  constructor
  · intro hi
    simp only [Sample.idle, Bool.and_eq_true, Bool.not_eq_true'] at hi
    obtain ⟨⟨⟨h1, h2⟩, h3⟩, h4⟩ := hi
    simp [handleButtons, h1, h2, h3, h4]
  · intro a hp hm
    refine ⟨stored_after_handleButtons p s g a hp hm, ?_⟩
    intro b hb
    cases a <;> simp only [OneShot.pressed, OneShot.masked, Bool.or_eq_false_iff] at hp hm <;>
      cases b <;> simp only [ne_eq, not_true_eq_false, reduceCtorEq, not_false_eq_true] at hb <;>
      cases p <;> simp only [handleButtons, hp, hm, OneShot.stored] <;>
      split_ifs <;> simp_all

/-- C14 (amended): `ToggleCVSystem` is issued at every tick in which `b1` is
true and `b1` has been false in every frame since the last frame with none of
`b1..b4` true (or since the start).  The stored flags are not the previous
frame: after a tick they equal the frame's `b1..b4` when none of them is true;
otherwise the flag of the highest-priority true button is true and the other
three keep their stored values. -/
theorem toggle_after_release (p : Program) (pre mid : List Reply) (cur : Reply)
    (f : Sample)
    (hpre : ∀ r ∈ pre.getLast?, ∃ g, sampleOf r = some g ∧ g.idle = true)
    (hmid : ∀ r ∈ mid, ∃ g, sampleOf r = some g ∧ g.b1 = false)
    (hf : sampleOf cur = some f) (hb : f.b1 = true) :
    OneShot.ToggleCVSystem.marker ∈
      (pollTick p (runTicks p State.init (pre ++ mid)).1 cur).2 ∧
    ∀ (s : State) (r : Reply) (g : Sample), sampleOf r = some g →
      (g.idle = true →
        (pollTick p s r).1.button1 = g.b1 ∧ (pollTick p s r).1.button2 = g.b2 ∧
        (pollTick p s r).1.button3 = g.b3 ∧ (pollTick p s r).1.button4 = g.b4) ∧
      ∀ a : OneShot, a.pressed g = true → a.masked g = false →
        a.stored (pollTick p s r).1 = true ∧
        ∀ b : OneShot, b ≠ a → b.stored (pollTick p s r).1 = b.stored s := by
  constructor
  · have h0 : (runTicks p State.init pre).1.button1 = false := by
      cases hl : pre.getLast? with
      | none =>
        have : pre = [] := List.getLast?_eq_none_iff.mp hl
        subst this
        rfl
      | some r =>
        obtain ⟨g, hg, hi⟩ := hpre r hl
        have hsplit : pre = pre.dropLast ++ [r] :=
          (List.dropLast_append_getLast? r hl).symm
        rw [hsplit, runTicks_snoc_state]
        exact stored_after_idle p _ r g OneShot.ToggleCVSystem hg hi
    have h1 : (runTicks p State.init (pre ++ mid)).1.button1 = false := by
      rw [runTicks_append]
      exact button1_false_through p mid _ h0 hmid
    have hc := count_marker_pollTick p (runTicks p State.init (pre ++ mid)).1 cur f
      OneShot.ToggleCVSystem hf hb rfl
    simp only [OneShot.stored, h1] at hc
    apply List.count_pos_iff.mp
    rw [hc]
    decide
  · intro s r g hg
    rw [pollTick_of_some p s r g hg]
    have hfl := flags_after_handleButtons p s g
    refine ⟨?_, ?_⟩
    · intro hi
      have := hfl.1 hi
      cases hm : (handleButtons p s g).2.2 <;>
        simpa [handleSample, storeSticks, hm] using this
    · intro a hp hm
      simp only [handleSample, stored_storeSticks]
      exact hfl.2 a hp hm

theorem toggle_after_release_witness :
    (∀ r ∈ [line "0 0 false false false false false\r"].getLast?,
      ∃ g, sampleOf r = some g ∧ g.idle = true) ∧
    (∀ r ∈ [line "0 0 false true false false false\r"],
      ∃ g, sampleOf r = some g ∧ g.b1 = false) ∧
    sampleOf (line "0 0 true false false false false\r") =
      some ⟨0, 0, true, false, false, false, false⟩ ∧
    OneShot.ToggleCVSystem.marker ∈
      (pollTick Program.tinyfaces
        (runTicks Program.tinyfaces State.init
          ([line "0 0 false false false false false\r"] ++
            [line "0 0 false true false false false\r"])).1
        (line "0 0 true false false false false\r")).2 :=
  ⟨fun _ hr => ⟨⟨0, 0, false, false, false, false, false⟩, by
      simp only [List.getLast?_singleton, Option.mem_def, Option.some.injEq] at hr
      subst hr
      exact ⟨by decide, rfl⟩⟩,
    fun _ hr => ⟨⟨0, 0, false, true, false, false, false⟩, by
      simp only [List.mem_singleton] at hr
      subst hr
      exact ⟨by decide, rfl⟩⟩,
    by decide,
    (toggle_after_release Program.tinyfaces
      [line "0 0 false false false false false\r"]
      [line "0 0 false true false false false\r"]
      (line "0 0 true false false false false\r")
      ⟨0, 0, true, false, false, false, false⟩
      (fun _ hr => ⟨⟨0, 0, false, false, false, false, false⟩, by
        simp only [List.getLast?_singleton, Option.mem_def, Option.some.injEq] at hr
        subst hr
        exact ⟨by decide, rfl⟩⟩)
      (fun _ hr => ⟨⟨0, 0, false, true, false, false, false⟩, by
        simp only [List.mem_singleton] at hr
        subst hr
        exact ⟨by decide, rfl⟩⟩)
      (by decide) rfl).1⟩

/-- C14 (as stated) fails: the frames `b1`, then `b2` alone, then `b1` alone.
In the third tick `b1` is true and was false in the frame before, yet nothing is
issued: `button1` is still true from the first tick, so the stored flags after
the second tick are not that frame's `b1..b4`. -/
theorem togglesOnEveryRisingEdge_fails :
    (∀ r ∈ [line "0 0 true false false false false\r",
        line "0 0 false true false false false\r",
        line "0 0 true false false false false\r"], (sampleOf r).isSome = true) ∧
    (runTicks Program.tinyfaces State.init
      [line "0 0 true false false false false\r",
        line "0 0 false true false false false\r"]).1.button1 = true ∧
    ¬ TogglesOnEveryRisingEdge Program.tinyfaces
      [line "0 0 true false false false false\r",
        line "0 0 false true false false false\r"]
      (line "0 0 true false false false false\r") := by
  refine ⟨by decide, by decide, ?_⟩
  intro h
  have h1 := h ⟨0, 0, true, false, false, false, false⟩ (by decide) rfl
    (fun prev hprev => ⟨⟨0, 0, false, true, false, false, false⟩, by
      have hp : prev = line "0 0 false true false false false\r" := by
        simpa [List.getLast?] using hprev.symm
      subst hp
      exact ⟨by decide, rfl⟩⟩)
  revert h1
  decide

/-! ## Parsing a well-formed record -/

theorem digitVal_eq (c : Char) (h : (digitVal c).isSome = true) :
    digitVal c = some (c.toNat - 48) := by
  unfold digitVal at h ⊢
  split_ifs at h ⊢
  · rfl
  · simp at h

theorem digit_clean (c : Char) (h : (digitVal c).isSome = true) :
    (c != ' ' && c != Char.ofNat 13 && c != Char.ofNat 10) = true := by
  have h1 : 48 ≤ c.toNat := by
    unfold digitVal at h
    split_ifs at h with hc
    · exact hc.1
    · simp at h
  have n1 : c ≠ ' ' := by rintro rfl; revert h1; decide
  have n2 : c ≠ Char.ofNat 13 := by rintro rfl; revert h1; decide
  have n3 : c ≠ Char.ofNat 10 := by rintro rfl; revert h1; decide
  simp [n1, n2, n3]

theorem le_digitsValue (cs : List Char) : ∀ n : Nat, n ≤ digitsValue n cs := by
  induction cs with
  | nil => intro n; exact Nat.le_refl n
  | cons c cs ih =>
    intro n
    have h := ih (n * 10 + (c.toNat - 48))
    simp only [digitsValue, List.foldl_cons] at h ⊢
    omega

theorem parseUintLoop_digits (cs : List Char) :
    ∀ n : Nat, cs.all (fun d => (digitVal d).isSome) = true →
      digitsValue n cs ≤ 2 ^ 64 - 1 →
      parseUintLoop n cs = .ok (digitsValue n cs) := by
  induction cs with
  | nil => intro n _ _; rfl
  | cons c cs ih =>
    intro n hall hle
    simp only [List.all_cons, Bool.and_eq_true] at hall
    have hstep : digitsValue n (c :: cs) = digitsValue (n * 10 + (c.toNat - 48)) cs := rfl
    have hmono := le_digitsValue cs (n * 10 + (c.toNat - 48))
    rw [hstep] at hle ⊢
    unfold parseUintLoop
    rw [digitVal_eq c hall.1]
    simp only
    rw [if_neg (by omega), if_neg (by omega)]
    exact ih _ hall.2 hle

theorem ParseUint_digits (cs : List Char) (hne : cs.isEmpty = false)
    (hall : cs.all (fun d => (digitVal d).isSome) = true)
    (hle : digitsValue 0 cs ≤ 2 ^ 64 - 1) :
    ParseUint cs = .ok (digitsValue 0 cs) := by
  cases cs with
  | nil => simp at hne
  | cons c cs => exact parseUintLoop_digits (c :: cs) 0 hall hle

theorem Atoi_decimal (tok : List Char) (hd : isDecimalInt tok = true)
    (h1 : -(2 ^ 63) ≤ decimalValue tok) (h2 : decimalValue tok < 2 ^ 63) :
    Atoi tok = (decimalValue tok, none) := by
  cases tok with
  | nil => simp [isDecimalInt] at hd
  | cons c cs =>
    simp only [isDecimalInt, Bool.and_eq_true, Bool.not_eq_true'] at hd
    by_cases hm : c = '-'
    · subst hm
      simp only [or_true, if_true] at hd
      simp only [decimalValue, if_true] at h1 h2 ⊢
      have hp := ParseUint_digits cs hd.1 hd.2 (by omega)
      simp only [Atoi, or_true, if_true, hp]
      rw [if_neg (by simp), if_neg (by omega)]
    · by_cases hpl : c = '+'
      · subst hpl
        simp only [true_or, if_true] at hd
        simp only [decimalValue, if_neg hm, if_true] at h1 h2 ⊢
        have hp := ParseUint_digits cs hd.1 hd.2 (by omega)
        simp only [Atoi, true_or, if_true, hp, if_neg hm]
        rw [if_neg (by omega), if_neg (by simp [hm])]
      · have hor : ¬ (c = '+' ∨ c = '-') := by
          rintro (h | h)
          · exact hpl h
          · exact hm h
        simp only [if_neg hor] at hd
        simp only [decimalValue, if_neg hm, if_neg hpl] at h1 h2 ⊢
        have hp := ParseUint_digits (c :: cs) hd.1 hd.2 (by omega)
        simp only [Atoi, if_neg hor, hp, if_neg hm]
        rw [if_neg (by omega), if_neg (by simp [hm])]

theorem Replace_of_not_mem (c : Char) (l : List Char) (h : c ∉ l) : Replace c l = l := by
  unfold Replace
  apply List.filter_eq_self.mpr
  intro d hd
  have : d ≠ c := by rintro rfl; exact h hd
  simpa using this

theorem Replace_replicate_self (c : Char) (n : Nat) :
    Replace c (List.replicate n c) = [] := by
  unfold Replace
  apply List.filter_eq_nil_iff.mpr
  intro d hd
  have := (List.mem_replicate.mp hd).2
  simp [this]

theorem Replace_append (c : Char) (a b : List Char) :
    Replace c (a ++ b) = Replace c a ++ Replace c b := by
  unfold Replace
  exact List.filter_append a b

theorem Replace_cons_self (c : Char) (l : List Char) : Replace c (c :: l) = Replace c l := by
  simp [Replace]

theorem strip_terminators (n1 n2 : Nat) (body : List Char)
    (h13 : Char.ofNat 13 ∉ body) (h10 : Char.ofNat 10 ∉ body) :
    Replace (Char.ofNat 10) (Replace (Char.ofNat 13)
        (List.replicate n1 (Char.ofNat 10) ++ body ++
          Char.ofNat 13 :: List.replicate n2 (Char.ofNat 10))) = body := by
  have hrep : ∀ n : Nat, Char.ofNat 13 ∉ List.replicate n (Char.ofNat 10) := by
    intro n hmem
    have := (List.mem_replicate.mp hmem).2
    revert this
    decide
  simp only [Replace_append, Replace_cons_self, Replace_of_not_mem _ _ (hrep n1),
    Replace_of_not_mem _ _ (hrep n2), Replace_of_not_mem _ _ h13,
    Replace_replicate_self, Replace_of_not_mem _ _ h10, List.nil_append,
    List.append_nil]

theorem cleanTok_not_mem (tok : List Char) (h : cleanTok tok = true) :
    ' ' ∉ tok ∧ Char.ofNat 13 ∉ tok ∧ Char.ofNat 10 ∉ tok := by
  unfold cleanTok at h
  rw [List.all_eq_true] at h
  refine ⟨?_, ?_, ?_⟩ <;> intro hmem <;> have := h _ hmem <;> revert this <;> decide

theorem isDecimalInt_clean (tok : List Char) (h : isDecimalInt tok = true) :
    cleanTok tok = true := by
  cases tok with
  | nil => simp [isDecimalInt] at h
  | cons c cs =>
    simp only [isDecimalInt, Bool.and_eq_true, Bool.not_eq_true'] at h
    unfold cleanTok
    rw [List.all_eq_true]
    by_cases hs : c = '+' ∨ c = '-'
    · simp only [if_pos hs] at h
      intro d hd
      rcases List.mem_cons.mp hd with rfl | hd
      · rcases hs with rfl | rfl <;> decide
      · exact digit_clean d (List.all_eq_true.mp h.2 d hd)
    · simp only [if_neg hs] at h
      intro d hd
      exact digit_clean d (List.all_eq_true.mp h.2 d hd)

theorem Split_append_space (t rest : List Char) (h : ' ' ∉ t) :
    Split (t ++ ' ' :: rest) = t :: Split rest := by
  induction t with
  | nil => simp [Split]
  | cons c cs ih =>
    have hc : c ≠ ' ' := by
      intro hc
      exact h (by simp [hc])
    have hcs : ' ' ∉ cs := fun hm => h (List.mem_cons_of_mem _ hm)
    show Split (c :: (cs ++ ' ' :: rest)) = (c :: cs) :: Split rest
    rw [Split, if_neg hc, ih hcs]

theorem Split_clean (t : List Char) (h : ' ' ∉ t) : Split t = [t] := by
  induction t with
  | nil => rfl
  | cons c cs ih =>
    have hc : c ≠ ' ' := by
      intro hc
      exact h (by simp [hc])
    have hcs : ' ' ∉ cs := fun hm => h (List.mem_cons_of_mem _ hm)
    rw [Split, if_neg hc, ih hcs]

theorem tokens_record (n1 n2 : Nat) (d0 d1 d2 d3 d4 d5 d6 : List Char) (err : Bool)
    (h0 : cleanTok d0 = true) (h1 : cleanTok d1 = true) (h2 : cleanTok d2 = true)
    (h3 : cleanTok d3 = true) (h4 : cleanTok d4 = true) (h5 : cleanTok d5 = true)
    (h6 : cleanTok d6 = true) :
    tokens ⟨record n1 d0 d1 d2 d3 d4 d5 d6 n2, err⟩ = [d0, d1, d2, d3, d4, d5, d6] := by
  obtain ⟨a0, b0, c0⟩ := cleanTok_not_mem d0 h0
  obtain ⟨a1, b1, c1⟩ := cleanTok_not_mem d1 h1
  obtain ⟨a2, b2, c2⟩ := cleanTok_not_mem d2 h2
  obtain ⟨a3, b3, c3⟩ := cleanTok_not_mem d3 h3
  obtain ⟨a4, b4, c4⟩ := cleanTok_not_mem d4 h4
  obtain ⟨a5, b5, c5⟩ := cleanTok_not_mem d5 h5
  obtain ⟨a6, b6, c6⟩ := cleanTok_not_mem d6 h6
  have e13 : Char.ofNat 13 ≠ ' ' := by decide
  have e10 : Char.ofNat 10 ≠ ' ' := by decide
  unfold tokens record
  rw [strip_terminators n1 n2 _
    (by simp [b0, b1, b2, b3, b4, b5, b6, e13])
    (by simp [c0, c1, c2, c3, c4, c5, c6, e10])]
  rw [Split_append_space _ _ a0, Split_append_space _ _ a1, Split_append_space _ _ a2,
    Split_append_space _ _ a3, Split_append_space _ _ a4, Split_append_space _ _ a5,
    Split_clean _ a6]

/-- C13 (amended): a record `x y t1 t2 t3 t4 t5` ended by a carriage return,
with line feeds before or after it, where `x` and `y` are decimal integers that
fit the Go `int` and `t1..t5` contain no space, carriage return or line feed,
parses to the sample `(x, y)` with flag `bi` true exactly when `ti` is the token
`true`. -/
theorem parse_record (n1 n2 : Nat) (d0 d1 d2 d3 d4 d5 d6 : List Char) (err : Bool)
    (hx : isDecimalInt d0 = true) (hy : isDecimalInt d1 = true)
    (hxlo : -(2 ^ 63) ≤ decimalValue d0) (hxhi : decimalValue d0 < 2 ^ 63)
    (hylo : -(2 ^ 63) ≤ decimalValue d1) (hyhi : decimalValue d1 < 2 ^ 63)
    (h2 : cleanTok d2 = true) (h3 : cleanTok d3 = true) (h4 : cleanTok d4 = true)
    (h5 : cleanTok d5 = true) (h6 : cleanTok d6 = true) :
    sampleOf ⟨record n1 d0 d1 d2 d3 d4 d5 d6 n2, err⟩ =
      some ⟨decimalValue d0, decimalValue d1, decide (d2 = trueTok),
        decide (d3 = trueTok), decide (d4 = trueTok), decide (d5 = trueTok),
        decide (d6 = trueTok)⟩ := by
  unfold sampleOf
  rw [tokens_record n1 n2 d0 d1 d2 d3 d4 d5 d6 err (isDecimalInt_clean d0 hx)
    (isDecimalInt_clean d1 hy) h2 h3 h4 h5 h6]
  simp only [parse, Atoi_decimal d0 hx hxlo hxhi, Atoi_decimal d1 hy hylo hyhi]

theorem parse_record_witness :
    isDecimalInt "100".toList = true ∧ isDecimalInt "200".toList = true ∧
    cleanTok "true".toList = true ∧ cleanTok "false".toList = true ∧
    sampleOf (line "100 200 true false false false false\r\n") =
      some ⟨100, 200, true, false, false, false, false⟩ ∧
    isDecimalInt "-7".toList = true ∧ isDecimalInt "+32767".toList = true ∧
    cleanTok "True".toList = true ∧ cleanTok "1".toList = true ∧
    sampleOf (line "\n-7 +32767 True 1 true false true\r") =
      some ⟨-7, 32767, false, false, true, false, true⟩ :=
  ⟨by decide, by decide, by decide, by decide,
    (parse_record 0 1 "100".toList "200".toList "true".toList "false".toList
      "false".toList "false".toList "false".toList false
      (by decide) (by decide) (by decide) (by decide) (by decide) (by decide)
      (by decide) (by decide) (by decide) (by decide) (by decide)).trans (by decide),
    by decide, by decide, by decide, by decide,
    (parse_record 1 0 "-7".toList "+32767".toList "True".toList "1".toList
      "true".toList "false".toList "true".toList false
      (by decide) (by decide) (by decide) (by decide) (by decide) (by decide)
      (by decide) (by decide) (by decide) (by decide) (by decide)).trans (by decide)⟩

/-- C13 (as stated) fails in two ways.  The decimal integer
`9223372036854775808` does not fit the Go `int`: `Atoi` returns the largest
`int` and the sample holds `9223372036854775807`.  The token `t`, line feed,
`rue` has no space and is not the token `true`, yet the line feed is removed
before the split and `b1` is true. -/
theorem parsesAsWritten_fails :
    sampleOf ⟨record 0 "9223372036854775808".toList "200".toList "true".toList
        "false".toList "false".toList "false".toList "false".toList 1, false⟩ =
      some ⟨9223372036854775807, 200, true, false, false, false, false⟩ ∧
    ¬ ParsesAsWritten 0 1 "9223372036854775808".toList "200".toList "true".toList
      "false".toList "false".toList "false".toList "false".toList ∧
    sampleOf ⟨record 0 "100".toList "200".toList "t\nrue".toList
        "false".toList "false".toList "false".toList "false".toList 1, false⟩ =
      some ⟨100, 200, true, false, false, false, false⟩ ∧
    ¬ ParsesAsWritten 0 1 "100".toList "200".toList "t\nrue".toList
      "false".toList "false".toList "false".toList "false".toList := by
  refine ⟨by decide, ?_, by decide, ?_⟩
  · intro h
    have h1 := h (by decide) (by decide) (by decide) (by decide) (by decide)
      (by decide) (by decide)
    revert h1
    decide
  · intro h
    have h1 := h (by decide) (by decide) (by decide) (by decide) (by decide)
      (by decide) (by decide)
    revert h1
    decide

end Golab
